import Mathlib

/-! Shallow embedding of the ink! vesting contract in src/lib.rs.

AccountId is modelled as Nat, an opaque equality-comparable identity.
The u8 and u128 machine integers are modelled as Nat: the contract performs
no subtraction and no arithmetic that can wrap on any state reachable from a
constructor (every total it computes is bounded by an original u128 balance),
so Nat addition and division agree with the machine semantics everywhere the
code runs.  The one partial operation is the u128 division
original_balance / total_vested_schedule in add_vested_balance, which in Rust
panics when the divisor is zero; the embedding of that message returns an
Option, with none standing for the division-by-zero panic.

Every message of the contract returns Result of unit and Error and every
return path returns Ok of unit; each path emits exactly one VestingEvent
before returning.  An OpResult therefore records the post state, the single
emitted event status, and the returned value.  The caller identity
(self.env().caller() in ink!) is passed as an explicit argument. -/

abbrev AccountId := Nat

/-- Error messages of the contract (enum Error in src/lib.rs). -/
inductive Error where
  | BadOrigin
  | VestedBalanceAlreadyExist
  | VestedBalanceNotFound
  | VestedBalanceScheduleNotFound
  | VestedBalanceScheduleNotLiquid
  | VestedBalanceScheduleNotRequested
deriving DecidableEq, Repr

/-- Success messages of the contract (enum Success in src/lib.rs). -/
inductive Success where
  | VestingSetupSuccess
  | VestedBalanceAdded
  | VestedBalanceRemoved
  | VestedBalanceScheduleThawed
  | VestedBalanceScheduleRequested
  | VestedBalanceScheduleApproved
deriving DecidableEq, Repr

/-- Vesting status carried by the emitted event (enum VestingStatus). -/
inductive VestingStatus where
  | EmitSuccess (s : Success)
  | EmitError (e : Error)
deriving DecidableEq, Repr

/-- One vested balance schedule slice (struct VestedBalanceSchedule).
status is a u8: 0 Frozen, 1 Liquid, 2 Requested, 3 Transferred. -/
structure VestedBalanceSchedule where
  schedule_number : Nat
  schedule_balance : Nat
  status : Nat
  recipient_address : Option AccountId
  particulars : List Nat
deriving DecidableEq, Repr

/-- A vested balance with its schedules and totals (struct VestedBalance). -/
structure VestedBalance where
  address : AccountId
  vested_balance_schedules : List VestedBalanceSchedule
  original_balance : Nat
  frozen_balance : Nat
  liquid_balance : Nat
  requested_balance : Nat
  transferred_balance : Nat
deriving DecidableEq, Repr

/-- The contract storage (struct Vesting). -/
structure Vesting where
  asset_id : Nat
  total_vested_schedule : Nat
  vested_balances : List VestedBalance
  vesting_owner : AccountId
deriving DecidableEq, Repr

instance : DecidableEq (Except Error Unit) := fun x y =>
  match x, y with
  | .ok (), .ok () => isTrue rfl
  | .error a, .error b =>
    if h : a = b then isTrue (by rw [h])
    else isFalse (by intro hc; cases hc; exact h rfl)
  | .ok _, .error _ => isFalse (by intro hc; cases hc)
  | .error _, .ok _ => isFalse (by intro hc; cases hc)

/-- Result of one message call: the post state, the single event the call
emitted, and the value the Rust function returned (always Ok of unit). -/
structure OpResult where
  state : Vesting
  event : VestingStatus
  ret : Except Error Unit
deriving DecidableEq, Repr

/-- Constructor new: empty balances, owner fixed to the creating caller. -/
def Vesting.new (asset_id : Nat) (total_vested_schedule : Nat)
    (caller : AccountId) : Vesting :=
  { asset_id := asset_id
    total_vested_schedule := total_vested_schedule
    vested_balances := []
    vesting_owner := caller }

/-- Constructor default: Self::new(0u128, 0u8). -/
def Vesting.defaultNew (caller : AccountId) : Vesting :=
  Vesting.new 0 0 caller

/-- One iteration of the loop in calculate_balances: add the slice amount to
the bucket matching the slice status (the Rust match on schedule.status). -/
def calc_step (vb : VestedBalance) (schedule : VestedBalanceSchedule) :
    VestedBalance :=
  match schedule.status with
  | 0 => { vb with frozen_balance := vb.frozen_balance + schedule.schedule_balance }
  | 1 => { vb with liquid_balance := vb.liquid_balance + schedule.schedule_balance }
  | 2 => { vb with requested_balance := vb.requested_balance + schedule.schedule_balance }
  | 3 => { vb with transferred_balance := vb.transferred_balance + schedule.schedule_balance }
  | _ => vb

/-- Helper function calculate_balances: zero the four totals, then fold the
slices, adding each amount to the bucket of its status. -/
def calculate_balances (vested_balance : VestedBalance) : VestedBalance :=
  List.foldl calc_step
    { vested_balance with
        frozen_balance := 0
        liquid_balance := 0
        requested_balance := 0
        transferred_balance := 0 }
    vested_balance.vested_balance_schedules

/-- Message setup_vesting: owner-only; replaces asset_id and
total_vested_schedule and clears all vested balances. -/
def setup_vesting (self : Vesting) (caller : AccountId) (asset_id : Nat)
    (total_vested_schedule : Nat) : OpResult :=
  if caller ≠ self.vesting_owner then
    { state := self, event := .EmitError .BadOrigin, ret := .ok () }
  else
    { state :=
        { self with
            asset_id := asset_id
            total_vested_schedule := total_vested_schedule
            vested_balances := [] }
      event := .EmitSuccess .VestingSetupSuccess
      ret := .ok () }

/-- Message get_vesting_info: unrestricted read. -/
def get_vesting_info (self : Vesting) : Nat × Nat × AccountId :=
  (self.asset_id, self.total_vested_schedule, self.vesting_owner)

/-- Message add_vested_balance: owner-only; rejects an existing address;
otherwise splits original_balance into total_vested_schedule frozen slices.
The Rust division original_balance / total_vested_schedule panics when
total_vested_schedule is 0, modelled by returning none. -/
def add_vested_balance (self : Vesting) (caller : AccountId)
    (address : AccountId) (original_balance : Nat) : Option OpResult :=
  if caller ≠ self.vesting_owner then
    some { state := self, event := .EmitError .BadOrigin, ret := .ok () }
  else if self.vested_balances.any (fun v => v.address == address) then
    some { state := self, event := .EmitError .VestedBalanceAlreadyExist,
           ret := .ok () }
  else if self.total_vested_schedule = 0 then
    none
  else
    let schedule_balance := original_balance / self.total_vested_schedule
    let schedules : List VestedBalanceSchedule :=
      (List.range self.total_vested_schedule).map fun i =>
        { schedule_number := i + 1
          schedule_balance := schedule_balance
          status := 0
          recipient_address := none
          particulars := [] }
    some
      { state :=
          { self with
              vested_balances := self.vested_balances ++
                [{ address := address
                   vested_balance_schedules := schedules
                   original_balance := original_balance
                   frozen_balance := original_balance
                   liquid_balance := 0
                   requested_balance := 0
                   transferred_balance := 0 }] }
        event := .EmitSuccess .VestedBalanceAdded
        ret := .ok () }

/-- Message get_vested_balance: unrestricted read of one address. -/
def get_vested_balance (self : Vesting) (address : AccountId) :
    Option VestedBalance :=
  self.vested_balances.find? (fun v => v.address == address)

/-- Message get_all_vested_balance: unrestricted read of the collection. -/
def get_all_vested_balance (self : Vesting) : List VestedBalance :=
  self.vested_balances

/-- Message thaw_vested_balances: owner-only; for every balance, every slice
with the given schedule_number whose status is 0 (Frozen) becomes 1 (Liquid),
and calculate_balances is run on every balance. -/
def thaw_vested_balances (self : Vesting) (caller : AccountId)
    (schedule_number : Nat) : OpResult :=
  if caller ≠ self.vesting_owner then
    { state := self, event := .EmitError .BadOrigin, ret := .ok () }
  else
    { state :=
        { self with
            vested_balances := self.vested_balances.map fun vested_balance =>
              calculate_balances
                { vested_balance with
                    vested_balance_schedules :=
                      vested_balance.vested_balance_schedules.map fun schedule =>
                        if schedule.schedule_number == schedule_number &&
                            schedule.status == 0 then
                          { schedule with status := 1 }
                        else
                          schedule } }
      event := .EmitSuccess .VestedBalanceScheduleThawed
      ret := .ok () }

/-- In-place mutation of the first element matching p, as performed by the
Rust pattern iter_mut().find(p) followed by writes through the reference. -/
def updateFirst (p : α → Bool) (f : α → α) : List α → List α
  | [] => []
  | x :: xs => if p x then f x :: xs else x :: updateFirst p f xs

/-- Message request_transfer: caller-scoped (no owner check).  Finds the
caller's balance, then the slice with the given schedule_number; if that
slice is Liquid (1) it becomes Requested (2) with the recipient recorded,
and the balance totals are recalculated. -/
def request_transfer (self : Vesting) (caller : AccountId)
    (schedule_number : Nat) (recipient_address : AccountId) : OpResult :=
  match self.vested_balances.find? (fun v => v.address == caller) with
  | none =>
    { state := self, event := .EmitError .VestedBalanceNotFound, ret := .ok () }
  | some vested_balance =>
    match vested_balance.vested_balance_schedules.find?
        (fun s => s.schedule_number == schedule_number) with
    | none =>
      { state := self, event := .EmitError .VestedBalanceScheduleNotFound,
        ret := .ok () }
    | some schedule =>
      if schedule.status = 1 then
        { state :=
            { self with
                vested_balances :=
                  updateFirst (fun v => v.address == caller)
                    (fun vb =>
                      calculate_balances
                        { vb with
                            vested_balance_schedules :=
                              updateFirst
                                (fun s => s.schedule_number == schedule_number)
                                (fun s =>
                                  { s with
                                      status := 2
                                      recipient_address :=
                                        some recipient_address })
                                vb.vested_balance_schedules })
                    self.vested_balances }
          event := .EmitSuccess .VestedBalanceScheduleRequested
          ret := .ok () }
      else
        { state := self, event := .EmitError .VestedBalanceScheduleNotLiquid,
          ret := .ok () }

/-- Message approve_transfer: owner-only.  Finds the requesting address's
balance, then the slice with the given schedule_number; if that slice is
Requested (2) it becomes Transferred (3) with the tx_hash recorded in
particulars, and the balance totals are recalculated. -/
def approve_transfer (self : Vesting) (caller : AccountId)
    (requesting_address : AccountId) (schedule_number : Nat)
    (tx_hash : List Nat) : OpResult :=
  if caller ≠ self.vesting_owner then
    { state := self, event := .EmitError .BadOrigin, ret := .ok () }
  else
    match self.vested_balances.find?
        (fun v => v.address == requesting_address) with
    | none =>
      { state := self, event := .EmitError .VestedBalanceNotFound,
        ret := .ok () }
    | some vested_balance =>
      match vested_balance.vested_balance_schedules.find?
          (fun s => s.schedule_number == schedule_number) with
      | none =>
        { state := self, event := .EmitError .VestedBalanceScheduleNotFound,
          ret := .ok () }
      | some schedule =>
        if schedule.status = 2 then
          { state :=
              { self with
                  vested_balances :=
                    updateFirst (fun v => v.address == requesting_address)
                      (fun vb =>
                        calculate_balances
                          { vb with
                              vested_balance_schedules :=
                                updateFirst
                                  (fun s =>
                                    s.schedule_number == schedule_number)
                                  (fun s =>
                                    { s with
                                        status := 3
                                        particulars := tx_hash })
                                  vb.vested_balance_schedules })
                      self.vested_balances }
            event := .EmitSuccess .VestedBalanceScheduleApproved
            ret := .ok () }
        else
          { state := self,
            event := .EmitError .VestedBalanceScheduleNotRequested,
            ret := .ok () }

/-- Vec::swap_remove(i): the last element is moved into position i and the
last position is popped.  Callers always pass an in-bounds index. -/
def swapRemove (l : List α) (i : Nat) : List α :=
  match l.getLast? with
  | none => l
  | some last => (l.set i last).dropLast

/-- Message remove_vested_balance: owner-only; removes the entry for the
address with Vec::swap_remove, regardless of the slice statuses. -/
def remove_vested_balance (self : Vesting) (caller : AccountId)
    (address : AccountId) : OpResult :=
  if caller ≠ self.vesting_owner then
    { state := self, event := .EmitError .BadOrigin, ret := .ok () }
  else
    match self.vested_balances.findIdx? (fun v => v.address == address) with
    | none =>
      { state := self, event := .EmitError .VestedBalanceNotFound,
        ret := .ok () }
    | some i =>
      { state := { self with vested_balances := swapRemove self.vested_balances i }
        event := .EmitSuccess .VestedBalanceRemoved
        ret := .ok () }

/-- One message invocation with its explicit caller and arguments. -/
inductive Op where
  | setup (caller : AccountId) (asset_id : Nat) (total_vested_schedule : Nat)
  | add (caller : AccountId) (address : AccountId) (original_balance : Nat)
  | thaw (caller : AccountId) (schedule_number : Nat)
  | request (caller : AccountId) (schedule_number : Nat)
      (recipient_address : AccountId)
  | approve (caller : AccountId) (requesting_address : AccountId)
      (schedule_number : Nat) (tx_hash : List Nat)
  | remove (caller : AccountId) (address : AccountId)
deriving DecidableEq, Repr

/-- Execute one message on a state.  none stands for a Rust panic (only the
division by zero in add_vested_balance); every other call produces a result. -/
def step (s : Vesting) : Op → Option OpResult
  | .setup c a t => some (setup_vesting s c a t)
  | .add c addr o => add_vested_balance s c addr o
  | .thaw c n => some (thaw_vested_balances s c n)
  | .request c n r => some (request_transfer s c n r)
  | .approve c a n m => some (approve_transfer s c a n m)
  | .remove c a => some (remove_vested_balance s c a)

/-- The per-balance mutation performed by thaw_vested_balances on every
balance: every slice with the given schedule_number that is Frozen becomes
Liquid, then the totals are recalculated. -/
def thawUpdate (n : Nat) : VestedBalance → VestedBalance :=
  fun vested_balance => calculate_balances
    { vested_balance with
        vested_balance_schedules :=
          vested_balance.vested_balance_schedules.map fun schedule =>
            if schedule.schedule_number == n && schedule.status == 0 then
              { schedule with status := 1 }
            else
              schedule }

/-- The per-balance mutation performed by a successful request_transfer:
the first slice with the given schedule_number becomes Requested with the
recipient recorded, then the totals are recalculated. -/
def requestUpdate (n : Nat) (rec : AccountId) :
    VestedBalance → VestedBalance :=
  fun b => calculate_balances
    { b with
        vested_balance_schedules :=
          updateFirst (fun sc => sc.schedule_number == n)
            (fun sc => { sc with status := 2, recipient_address := some rec })
            b.vested_balance_schedules }

/-- The per-balance mutation performed by a successful approve_transfer:
the first slice with the given schedule_number becomes Transferred with the
tx hash recorded in particulars, then the totals are recalculated. -/
def approveUpdate (n : Nat) (m : List Nat) :
    VestedBalance → VestedBalance :=
  fun b => calculate_balances
    { b with
        vested_balance_schedules :=
          updateFirst (fun sc => sc.schedule_number == n)
            (fun sc => { sc with status := 3, particulars := m })
            b.vested_balance_schedules }

/-- Sum of the four status totals of a balance. -/
def sum4 (b : VestedBalance) : Nat :=
  b.frozen_balance + b.liquid_balance + b.requested_balance +
    b.transferred_balance

/-- Sum of the schedule_balance amounts of all slices of a balance. -/
def sliceSum (b : VestedBalance) : Nat :=
  (b.vested_balance_schedules.map (fun s => s.schedule_balance)).sum

/-- Sum of the schedule_balance amounts of the slices with status k. -/
def sumStatus (l : List VestedBalanceSchedule) (k : Nat) : Nat :=
  (l.map (fun s => if s.status = k then s.schedule_balance else 0)).sum

/-- The status of the slice with the given schedule_number inside the balance
of the given address (first matches, as the contract looks them up). -/
def lookupStatus (s : Vesting) (a : AccountId) (n : Nat) : Option Nat :=
  (s.vested_balances.find? (fun v => v.address == a)).bind fun b =>
    (b.vested_balance_schedules.find?
      (fun sc => sc.schedule_number == n)).map fun sc => sc.status

/-- States reachable from a freshly constructed ledger by message calls that
did not panic. -/
inductive Reachable : Vesting → Prop where
  | new (asset_id total_vested_schedule : Nat) (caller : AccountId) :
      Reachable (Vesting.new asset_id total_vested_schedule caller)
  | step (s : Vesting) (op : Op) (r : OpResult) :
      Reachable s → step s op = some r → Reachable r.state

/-- States reachable from a freshly constructed ledger when, in addition,
every add_vested_balance call used an original_balance divisible by the
ledger's total_vested_schedule at the time of the call. -/
inductive DivReachable : Vesting → Prop where
  | new (asset_id total_vested_schedule : Nat) (caller : AccountId) :
      DivReachable (Vesting.new asset_id total_vested_schedule caller)
  | step (s : Vesting) (op : Op) (r : OpResult) :
      DivReachable s → step s op = some r →
      (∀ c a o, op = Op.add c a o → s.total_vested_schedule ∣ o) →
      DivReachable r.state

/-- Structural invariant of one balance in a reachable state: every slice
status is one of the four buckets, every slice amount is the truncated even
share of the original balance, and the four totals are either the recomputed
bucket sums or still the initial assignment of a freshly added balance (all
slices Frozen, frozen_balance = original_balance, other totals zero). -/
def GoodBalance (b : VestedBalance) : Prop :=
  (∀ sl ∈ b.vested_balance_schedules,
      sl.status ≤ 3 ∧
      sl.schedule_balance =
        b.original_balance / b.vested_balance_schedules.length) ∧
  (sum4 b = sliceSum b ∨
    (b.frozen_balance = b.original_balance ∧ b.liquid_balance = 0 ∧
     b.requested_balance = 0 ∧ b.transferred_balance = 0 ∧
     ∀ sl ∈ b.vested_balance_schedules, sl.status = 0))

/-- Ledger invariant: balance addresses are pairwise distinct and every
balance satisfies GoodBalance. -/
def LedgerInv (s : Vesting) : Prop :=
  (s.vested_balances.map (fun b => b.address)).Nodup ∧
  ∀ b ∈ s.vested_balances, GoodBalance b

/-- Per-balance invariant holding when each add used an evenly divisible
original balance: both accounting views agree with original_balance. -/
def DivBalance (b : VestedBalance) : Prop :=
  (∀ sl ∈ b.vested_balance_schedules, sl.status ≤ 3) ∧
  sliceSum b = b.original_balance ∧ sum4 b = b.original_balance

/-- Ledger-wide version of DivBalance. -/
def DivInv (s : Vesting) : Prop :=
  ∀ b ∈ s.vested_balances, DivBalance b

/-- Example balance: added with original 100 under a 4-slice schedule. -/
def exBal1 : VestedBalance :=
  { address := 1
    vested_balance_schedules :=
      [{ schedule_number := 1, schedule_balance := 25, status := 0,
         recipient_address := none, particulars := [] },
       { schedule_number := 2, schedule_balance := 25, status := 0,
         recipient_address := none, particulars := [] },
       { schedule_number := 3, schedule_balance := 25, status := 0,
         recipient_address := none, particulars := [] },
       { schedule_number := 4, schedule_balance := 25, status := 0,
         recipient_address := none, particulars := [] }]
    original_balance := 100
    frozen_balance := 100
    liquid_balance := 0
    requested_balance := 0
    transferred_balance := 0 }

/-- Example ledger: owner 7, schedule count 4, one balance for address 1. -/
def exS1 : Vesting :=
  { asset_id := 0
    total_vested_schedule := 4
    vested_balances := [exBal1]
    vesting_owner := 7 }

/-- exBal1 after thawing slice 1. -/
def exBal2 : VestedBalance :=
  { address := 1
    vested_balance_schedules :=
      [{ schedule_number := 1, schedule_balance := 25, status := 1,
         recipient_address := none, particulars := [] },
       { schedule_number := 2, schedule_balance := 25, status := 0,
         recipient_address := none, particulars := [] },
       { schedule_number := 3, schedule_balance := 25, status := 0,
         recipient_address := none, particulars := [] },
       { schedule_number := 4, schedule_balance := 25, status := 0,
         recipient_address := none, particulars := [] }]
    original_balance := 100
    frozen_balance := 75
    liquid_balance := 25
    requested_balance := 0
    transferred_balance := 0 }

/-- exS1 after the owner thaws slice 1. -/
def exS2 : Vesting :=
  { asset_id := 0
    total_vested_schedule := 4
    vested_balances := [exBal2]
    vesting_owner := 7 }

/-- exBal2 after address 1 requested transfer of slice 1 to recipient 2. -/
def exBal3 : VestedBalance :=
  { address := 1
    vested_balance_schedules :=
      [{ schedule_number := 1, schedule_balance := 25, status := 2,
         recipient_address := some 2, particulars := [] },
       { schedule_number := 2, schedule_balance := 25, status := 0,
         recipient_address := none, particulars := [] },
       { schedule_number := 3, schedule_balance := 25, status := 0,
         recipient_address := none, particulars := [] },
       { schedule_number := 4, schedule_balance := 25, status := 0,
         recipient_address := none, particulars := [] }]
    original_balance := 100
    frozen_balance := 75
    liquid_balance := 0
    requested_balance := 25
    transferred_balance := 0 }

/-- exS2 after the request_transfer of slice 1 by caller 1. -/
def exS3 : Vesting :=
  { asset_id := 0
    total_vested_schedule := 4
    vested_balances := [exBal3]
    vesting_owner := 7 }

/-- Example balance under a 3-slice schedule: 100 / 3 truncates to 33. -/
def exBalT : VestedBalance :=
  { address := 5
    vested_balance_schedules :=
      [{ schedule_number := 1, schedule_balance := 33, status := 0,
         recipient_address := none, particulars := [] },
       { schedule_number := 2, schedule_balance := 33, status := 0,
         recipient_address := none, particulars := [] },
       { schedule_number := 3, schedule_balance := 33, status := 0,
         recipient_address := none, particulars := [] }]
    original_balance := 100
    frozen_balance := 100
    liquid_balance := 0
    requested_balance := 0
    transferred_balance := 0 }

/-- Example ledger with the truncating balance: owner 9, schedule count 3. -/
def exT1 : Vesting :=
  { asset_id := 0
    total_vested_schedule := 3
    vested_balances := [exBalT]
    vesting_owner := 9 }

/-! Helper lemmas: characterization of calculate_balances. -/

theorem foldl_calc_step (l : List VestedBalanceSchedule) (vb : VestedBalance) :
    List.foldl calc_step vb l =
      { vb with
          frozen_balance := vb.frozen_balance + sumStatus l 0
          liquid_balance := vb.liquid_balance + sumStatus l 1
          requested_balance := vb.requested_balance + sumStatus l 2
          transferred_balance := vb.transferred_balance + sumStatus l 3 } := by
  induction l generalizing vb with
  | nil => simp [sumStatus]
  | cons x xs ih =>
    rw [List.foldl_cons, ih]
    rcases vb with ⟨addr, scheds, orig, fz, lq, rq, tf⟩
    rcases x with ⟨num, bal, st, rec, par⟩
    rcases st with _ | _ | _ | _ | st <;>
      simp [calc_step, sumStatus, VestedBalance.mk.injEq] <;> omega

theorem calculate_balances_eq (vb : VestedBalance) :
    calculate_balances vb =
      { vb with
          frozen_balance := sumStatus vb.vested_balance_schedules 0
          liquid_balance := sumStatus vb.vested_balance_schedules 1
          requested_balance := sumStatus vb.vested_balance_schedules 2
          transferred_balance := sumStatus vb.vested_balance_schedules 3 } := by
  unfold calculate_balances
  rw [foldl_calc_step]
  simp

@[simp] theorem calculate_balances_schedules (vb : VestedBalance) :
    (calculate_balances vb).vested_balance_schedules =
      vb.vested_balance_schedules := by
  rw [calculate_balances_eq]

@[simp] theorem calculate_balances_address (vb : VestedBalance) :
    (calculate_balances vb).address = vb.address := by
  rw [calculate_balances_eq]

@[simp] theorem calculate_balances_original (vb : VestedBalance) :
    (calculate_balances vb).original_balance = vb.original_balance := by
  rw [calculate_balances_eq]

theorem sumStatus_total (l : List VestedBalanceSchedule)
    (h : ∀ sl ∈ l, sl.status ≤ 3) :
    sumStatus l 0 + sumStatus l 1 + sumStatus l 2 + sumStatus l 3 =
      (l.map (fun s => s.schedule_balance)).sum := by
  induction l with
  | nil => simp [sumStatus]
  | cons x xs ih =>
    have hx := h x (List.mem_cons_self x xs)
    have hxs : ∀ sl ∈ xs, sl.status ≤ 3 := fun sl hs =>
      h sl (List.mem_cons_of_mem _ hs)
    specialize ih hxs
    have hcase : x.status = 0 ∨ x.status = 1 ∨ x.status = 2 ∨ x.status = 3 := by
      omega
    rcases hcase with h0 | h0 | h0 | h0 <;>
      simp [sumStatus, h0] at ih ⊢ <;> omega

theorem sum4_calculate_balances (vb : VestedBalance)
    (h : ∀ sl ∈ vb.vested_balance_schedules, sl.status ≤ 3) :
    sum4 (calculate_balances vb) = sliceSum vb := by
  rw [calculate_balances_eq]
  unfold sum4 sliceSum
  simp only
  exact sumStatus_total _ h

/-! Helper lemmas: updateFirst, the embedding of mutation through an
iter_mut().find reference. -/

theorem updateFirst_length (p : α → Bool) (f : α → α) (l : List α) :
    (updateFirst p f l).length = l.length := by
  induction l with
  | nil => rfl
  | cons x xs ih =>
    unfold updateFirst
    by_cases hpx : p x <;> simp [hpx, ih]

theorem updateFirst_of_find?_none (p : α → Bool) (f : α → α) (l : List α)
    (h : l.find? p = none) : updateFirst p f l = l := by
  induction l with
  | nil => rfl
  | cons x xs ih =>
    cases hpx : p x with
    | true =>
      rw [List.find?_cons_of_pos _ hpx] at h
      cases h
    | false =>
      rw [List.find?_cons_of_neg _ (by simp [hpx])] at h
      unfold updateFirst
      simp [hpx, ih h]

theorem mem_updateFirst (p : α → Bool) (f : α → α) (l : List α) (y : α)
    (h : y ∈ updateFirst p f l) : y ∈ l ∨ ∃ x, x ∈ l ∧ y = f x := by
  induction l with
  | nil => cases h
  | cons x xs ih =>
    unfold updateFirst at h
    cases hpx : p x with
    | true =>
      rw [if_pos (by simp [hpx])] at h
      rcases List.mem_cons.mp h with rfl | hy
      · exact Or.inr ⟨x, List.mem_cons_self x xs, rfl⟩
      · exact Or.inl (List.mem_cons_of_mem _ hy)
    | false =>
      rw [if_neg (by simp [hpx])] at h
      rcases List.mem_cons.mp h with rfl | hy
      · exact Or.inl (List.mem_cons_self _ _)
      · rcases ih hy with hl | ⟨z, hz, rfl⟩
        · exact Or.inl (List.mem_cons_of_mem _ hl)
        · exact Or.inr ⟨z, List.mem_cons_of_mem _ hz, rfl⟩

theorem map_updateFirst (g : α → β) (p : α → Bool) (f : α → α)
    (hg : ∀ x, g (f x) = g x) (l : List α) :
    (updateFirst p f l).map g = l.map g := by
  induction l with
  | nil => rfl
  | cons x xs ih =>
    unfold updateFirst
    by_cases hpx : p x <;> simp [hpx, hg, ih]

theorem find?_updateFirst_self (p : α → Bool) (f : α → α)
    (hf : ∀ x, p (f x) = p x) (l : List α) :
    (updateFirst p f l).find? p = (l.find? p).map f := by
  induction l with
  | nil => rfl
  | cons x xs ih =>
    unfold updateFirst
    cases hpx : p x with
    | true =>
      rw [if_pos (by simp [hpx]), List.find?_cons_of_pos _ hpx,
        List.find?_cons_of_pos _ (by rw [hf]; exact hpx)]
      rfl
    | false =>
      rw [if_neg (by simp [hpx]), List.find?_cons_of_neg _ (by simp [hpx]),
        List.find?_cons_of_neg _ (by simp [hpx])]
      exact ih

theorem find?_updateFirst_other (p q : α → Bool) (f : α → α)
    (hdisj : ∀ x, p x = true → q x = false)
    (hq : ∀ x, q (f x) = q x) (l : List α) :
    (updateFirst p f l).find? q = l.find? q := by
  induction l with
  | nil => rfl
  | cons x xs ih =>
    unfold updateFirst
    cases hpx : p x with
    | true =>
      rw [if_pos (by simp [hpx]), List.find?_cons_of_neg _
          (by simp [hq, hdisj x hpx]),
        List.find?_cons_of_neg _ (by simp [hdisj x hpx])]
    | false =>
      rw [if_neg (by simp [hpx])]
      cases hqx : q x with
      | true =>
        rw [List.find?_cons_of_pos _ hqx, List.find?_cons_of_pos _ hqx]
      | false =>
        rw [List.find?_cons_of_neg _ (by simp [hqx]),
          List.find?_cons_of_neg _ (by simp [hqx])]
        exact ih

theorem updateFirst_eq_set (p : α → Bool) (f : α → α) (l : List α) (x : α)
    (h : l.find? p = some x) :
    ∃ i, ∃ hi : i < l.length, l.get ⟨i, hi⟩ = x ∧ p x = true ∧
      (∀ j, ∀ hj : j < l.length, j < i → p (l.get ⟨j, hj⟩) = false) ∧
      updateFirst p f l = l.set i (f x) := by
  induction l with
  | nil => cases h
  | cons y ys ih =>
    cases hpy : p y with
    | true =>
      rw [List.find?_cons_of_pos _ hpy] at h
      injection h with h
      subst h
      refine ⟨0, by simp, rfl, hpy, ?_, ?_⟩
      · intro j hj hji
        omega
      · unfold updateFirst
        rw [if_pos (by simp [hpy])]
        rfl
    | false =>
      rw [List.find?_cons_of_neg _ (by simp [hpy])] at h
      obtain ⟨i, hi, hget, hpx, hbefore, heq⟩ := ih h
      refine ⟨i + 1, by simpa using Nat.succ_lt_succ hi, hget, hpx, ?_, ?_⟩
      · intro j hj hji
        cases j with
        | zero => exact hpy
        | succ j' =>
          have hj' : j' < ys.length := by simpa using hj
          have hb := hbefore j' hj' (Nat.lt_of_succ_lt_succ hji)
          simpa using hb
      · unfold updateFirst
        rw [if_neg (by simp [hpy]), heq]
        rfl

theorem find?_map_pres (p : α → Bool) (f : α → α)
    (hf : ∀ x, p (f x) = p x) (l : List α) :
    (l.map f).find? p = (l.find? p).map f := by
  induction l with
  | nil => rfl
  | cons x xs ih =>
    rw [List.map_cons]
    cases hpx : p x with
    | true =>
      rw [List.find?_cons_of_pos _ (by rw [hf]; exact hpx),
        List.find?_cons_of_pos _ hpx]
      rfl
    | false =>
      rw [List.find?_cons_of_neg _ (by simp [hf, hpx]),
        List.find?_cons_of_neg _ (by simp [hpx])]
      exact ih

/-! Helper lemmas: swapRemove, the embedding of Vec::swap_remove. -/

theorem mem_swapRemove (l : List α) (i : Nat) (y : α)
    (h : y ∈ swapRemove l i) : y ∈ l := by
  unfold swapRemove at h
  cases hl : l.getLast? with
  | none => rw [hl] at h; exact h
  | some last =>
    rw [hl] at h
    have h1 : y ∈ l.set i last := List.mem_of_mem_dropLast h
    rcases List.mem_or_eq_of_mem_set h1 with hm | rfl
    · exact hm
    · exact List.mem_of_mem_getLast? (Option.mem_def.mpr hl)

theorem swapRemove_cons_zero (x : α) (xs : List α) (last : α)
    (h : xs.getLast? = some last) :
    swapRemove (x :: xs) 0 = last :: xs.dropLast := by
  cases xs with
  | nil => cases h
  | cons y ys =>
    simp only [swapRemove, List.getLast?_cons_cons, h]
    show (last :: y :: ys).dropLast = last :: (y :: ys).dropLast
    exact List.dropLast_cons₂

theorem swapRemove_cons_succ (x : α) (xs : List α) (i : Nat) (hxs : xs ≠ []) :
    swapRemove (x :: xs) (i + 1) = x :: swapRemove xs i := by
  cases hl : xs.getLast? with
  | none => exact absurd (List.getLast?_eq_none_iff.mp hl) hxs
  | some last =>
    have h1 : (x :: xs).getLast? = some last := by
      cases xs with
      | nil => cases hl
      | cons y ys => rw [List.getLast?_cons_cons]; exact hl
    have h3 : xs.set i last ≠ [] := by
      intro he
      apply hxs
      have hlen := congrArg List.length he
      rw [List.length_set] at hlen
      exact List.length_eq_zero.mp hlen
    simp only [swapRemove, h1, hl]
    have h2 : (x :: xs).set (i + 1) last = x :: xs.set i last := rfl
    rw [h2]
    cases hset : xs.set i last with
    | nil => exact absurd hset h3
    | cons z zs => exact List.dropLast_cons₂

theorem nodup_map_swapRemove (g : α → β) (l : List α) (i : Nat)
    (h : (l.map g).Nodup) : ((swapRemove l i).map g).Nodup := by
  induction l generalizing i with
  | nil => simp [swapRemove]
  | cons x xs ih =>
    cases i with
    | zero =>
      cases hl : xs.getLast? with
      | none =>
        have hxs := List.getLast?_eq_none_iff.mp hl
        subst hxs
        simp [swapRemove]
      | some last =>
        rw [swapRemove_cons_zero x xs last hl]
        rw [List.map_cons, List.nodup_cons] at h
        have h2 : (xs.map g).Nodup := h.2
        have hx : xs = xs.dropLast ++ [last] :=
          (List.dropLast_append_getLast? last (Option.mem_def.mpr hl)).symm
        rw [hx, List.map_append, List.nodup_append] at h2
        rw [List.map_cons, List.nodup_cons]
        refine ⟨fun hmem => ?_, h2.1⟩
        exact h2.2.2 hmem (by simp)
    | succ i' =>
      cases xs with
      | nil => simp [swapRemove]
      | cons y ys =>
        rw [swapRemove_cons_succ x (y :: ys) i' (by simp), List.map_cons,
          List.nodup_cons]
        rw [List.map_cons, List.nodup_cons] at h
        refine ⟨fun hmem => ?_, ih i' h.2⟩
        rcases List.mem_map.mp hmem with ⟨z, hz, hgz⟩
        exact h.1 (hgz ▸ List.mem_map_of_mem g (mem_swapRemove (y :: ys) i' z hz))

/-! Helper lemmas: find? by address under unique addresses. -/

theorem find?_addr_of_mem (l : List VestedBalance)
    (hnd : (l.map (fun b => b.address)).Nodup)
    (b : VestedBalance) (hmem : b ∈ l) (a : AccountId) (hba : b.address = a) :
    l.find? (fun v => v.address == a) = some b := by
  induction l with
  | nil => cases hmem
  | cons x xs ih =>
    rw [List.map_cons, List.nodup_cons] at hnd
    rcases List.mem_cons.mp hmem with rfl | hmem'
    · exact List.find?_cons_of_pos _ (by simp [hba])
    · have hxa : ¬ x.address = a := by
        intro hx
        apply hnd.1
        rw [hx, ← hba]
        exact List.mem_map_of_mem _ hmem'
      rw [List.find?_cons_of_neg _ (by simp [hxa])]
      exact ih hnd.2 hmem'

/-! Shape lemmas: each message unfolded on each of its control paths. -/

theorem setup_vesting_not_owner (s : Vesting) (c : AccountId) (a t : Nat)
    (h : c ≠ s.vesting_owner) :
    setup_vesting s c a t =
      { state := s, event := .EmitError .BadOrigin, ret := .ok () } := by
  unfold setup_vesting
  rw [if_pos h]

theorem setup_vesting_owner (s : Vesting) (c : AccountId) (a t : Nat)
    (h : c = s.vesting_owner) :
    setup_vesting s c a t =
      { state :=
          { s with asset_id := a, total_vested_schedule := t,
                   vested_balances := [] }
        event := .EmitSuccess .VestingSetupSuccess
        ret := .ok () } := by
  unfold setup_vesting
  rw [if_neg (by simp [h])]

theorem add_vested_balance_not_owner (s : Vesting) (c a : AccountId) (o : Nat)
    (h : c ≠ s.vesting_owner) :
    add_vested_balance s c a o =
      some { state := s, event := .EmitError .BadOrigin, ret := .ok () } := by
  unfold add_vested_balance
  rw [if_pos h]

theorem add_vested_balance_exists (s : Vesting) (c a : AccountId) (o : Nat)
    (hc : c = s.vesting_owner)
    (h : s.vested_balances.any (fun v => v.address == a) = true) :
    add_vested_balance s c a o =
      some { state := s, event := .EmitError .VestedBalanceAlreadyExist,
             ret := .ok () } := by
  unfold add_vested_balance
  rw [if_neg (by simp [hc]), if_pos (by simp [h])]

theorem add_vested_balance_panic (s : Vesting) (c a : AccountId) (o : Nat)
    (hc : c = s.vesting_owner)
    (h : s.vested_balances.any (fun v => v.address == a) = false)
    (ht : s.total_vested_schedule = 0) :
    add_vested_balance s c a o = none := by
  unfold add_vested_balance
  rw [if_neg (by simp [hc]), if_neg (by simp [h]), if_pos ht]

theorem add_vested_balance_success (s : Vesting) (c a : AccountId) (o : Nat)
    (hc : c = s.vesting_owner)
    (h : s.vested_balances.any (fun v => v.address == a) = false)
    (ht : s.total_vested_schedule ≠ 0) :
    add_vested_balance s c a o =
      some
        { state :=
            { s with
                vested_balances := s.vested_balances ++
                  [{ address := a
                     vested_balance_schedules :=
                       (List.range s.total_vested_schedule).map fun i =>
                         { schedule_number := i + 1
                           schedule_balance := o / s.total_vested_schedule
                           status := 0
                           recipient_address := none
                           particulars := [] }
                     original_balance := o
                     frozen_balance := o
                     liquid_balance := 0
                     requested_balance := 0
                     transferred_balance := 0 }] }
          event := .EmitSuccess .VestedBalanceAdded
          ret := .ok () } := by
  unfold add_vested_balance
  rw [if_neg (by simp [hc]), if_neg (by simp [h]), if_neg ht]

theorem thaw_vested_balances_not_owner (s : Vesting) (c : AccountId) (n : Nat)
    (h : c ≠ s.vesting_owner) :
    thaw_vested_balances s c n =
      { state := s, event := .EmitError .BadOrigin, ret := .ok () } := by
  unfold thaw_vested_balances
  rw [if_pos h]

theorem thaw_vested_balances_owner (s : Vesting) (c : AccountId) (n : Nat)
    (h : c = s.vesting_owner) :
    thaw_vested_balances s c n =
      { state :=
          { s with
              vested_balances := s.vested_balances.map fun vested_balance =>
                calculate_balances
                  { vested_balance with
                      vested_balance_schedules :=
                        vested_balance.vested_balance_schedules.map
                          fun schedule =>
                            if schedule.schedule_number == n &&
                                schedule.status == 0 then
                              { schedule with status := 1 }
                            else
                              schedule } }
        event := .EmitSuccess .VestedBalanceScheduleThawed
        ret := .ok () } := by
  unfold thaw_vested_balances
  rw [if_neg (by simp [h])]

theorem request_transfer_not_found (s : Vesting) (c : AccountId) (n : Nat)
    (r : AccountId)
    (hfb : s.vested_balances.find? (fun v => v.address == c) = none) :
    request_transfer s c n r =
      { state := s, event := .EmitError .VestedBalanceNotFound,
        ret := .ok () } := by
  unfold request_transfer
  simp only [hfb]

theorem request_transfer_sched_not_found (s : Vesting) (c : AccountId)
    (n : Nat) (r : AccountId) (vb : VestedBalance)
    (hfb : s.vested_balances.find? (fun v => v.address == c) = some vb)
    (hfs : vb.vested_balance_schedules.find?
      (fun sc => sc.schedule_number == n) = none) :
    request_transfer s c n r =
      { state := s, event := .EmitError .VestedBalanceScheduleNotFound,
        ret := .ok () } := by
  unfold request_transfer
  simp only [hfb, hfs]

theorem request_transfer_not_liquid (s : Vesting) (c : AccountId) (n : Nat)
    (r : AccountId) (vb : VestedBalance) (sch : VestedBalanceSchedule)
    (hfb : s.vested_balances.find? (fun v => v.address == c) = some vb)
    (hfs : vb.vested_balance_schedules.find?
      (fun sc => sc.schedule_number == n) = some sch)
    (hst : sch.status ≠ 1) :
    request_transfer s c n r =
      { state := s, event := .EmitError .VestedBalanceScheduleNotLiquid,
        ret := .ok () } := by
  unfold request_transfer
  simp only [hfb, hfs]
  rw [if_neg hst]

theorem request_transfer_success (s : Vesting) (c : AccountId) (n : Nat)
    (r : AccountId) (vb : VestedBalance) (sch : VestedBalanceSchedule)
    (hfb : s.vested_balances.find? (fun v => v.address == c) = some vb)
    (hfs : vb.vested_balance_schedules.find?
      (fun sc => sc.schedule_number == n) = some sch)
    (hst : sch.status = 1) :
    request_transfer s c n r =
      { state :=
          { s with
              vested_balances :=
                updateFirst (fun v => v.address == c)
                  (fun vb =>
                    calculate_balances
                      { vb with
                          vested_balance_schedules :=
                            updateFirst (fun sc => sc.schedule_number == n)
                              (fun sc =>
                                { sc with
                                    status := 2
                                    recipient_address := some r })
                              vb.vested_balance_schedules })
                  s.vested_balances }
        event := .EmitSuccess .VestedBalanceScheduleRequested
        ret := .ok () } := by
  unfold request_transfer
  simp only [hfb, hfs]
  rw [if_pos hst]

theorem approve_transfer_not_owner (s : Vesting) (c ra : AccountId) (n : Nat)
    (m : List Nat) (h : c ≠ s.vesting_owner) :
    approve_transfer s c ra n m =
      { state := s, event := .EmitError .BadOrigin, ret := .ok () } := by
  unfold approve_transfer
  rw [if_pos h]

theorem approve_transfer_not_found (s : Vesting) (c ra : AccountId) (n : Nat)
    (m : List Nat) (hc : c = s.vesting_owner)
    (hfb : s.vested_balances.find? (fun v => v.address == ra) = none) :
    approve_transfer s c ra n m =
      { state := s, event := .EmitError .VestedBalanceNotFound,
        ret := .ok () } := by
  unfold approve_transfer
  rw [if_neg (by simp [hc])]
  simp only [hfb]

theorem approve_transfer_sched_not_found (s : Vesting) (c ra : AccountId)
    (n : Nat) (m : List Nat) (vb : VestedBalance) (hc : c = s.vesting_owner)
    (hfb : s.vested_balances.find? (fun v => v.address == ra) = some vb)
    (hfs : vb.vested_balance_schedules.find?
      (fun sc => sc.schedule_number == n) = none) :
    approve_transfer s c ra n m =
      { state := s, event := .EmitError .VestedBalanceScheduleNotFound,
        ret := .ok () } := by
  unfold approve_transfer
  rw [if_neg (by simp [hc])]
  simp only [hfb, hfs]

theorem approve_transfer_not_requested (s : Vesting) (c ra : AccountId)
    (n : Nat) (m : List Nat) (vb : VestedBalance)
    (sch : VestedBalanceSchedule) (hc : c = s.vesting_owner)
    (hfb : s.vested_balances.find? (fun v => v.address == ra) = some vb)
    (hfs : vb.vested_balance_schedules.find?
      (fun sc => sc.schedule_number == n) = some sch)
    (hst : sch.status ≠ 2) :
    approve_transfer s c ra n m =
      { state := s, event := .EmitError .VestedBalanceScheduleNotRequested,
        ret := .ok () } := by
  unfold approve_transfer
  rw [if_neg (by simp [hc])]
  simp only [hfb, hfs]
  rw [if_neg hst]

theorem approve_transfer_success (s : Vesting) (c ra : AccountId) (n : Nat)
    (m : List Nat) (vb : VestedBalance) (sch : VestedBalanceSchedule)
    (hc : c = s.vesting_owner)
    (hfb : s.vested_balances.find? (fun v => v.address == ra) = some vb)
    (hfs : vb.vested_balance_schedules.find?
      (fun sc => sc.schedule_number == n) = some sch)
    (hst : sch.status = 2) :
    approve_transfer s c ra n m =
      { state :=
          { s with
              vested_balances :=
                updateFirst (fun v => v.address == ra)
                  (fun vb =>
                    calculate_balances
                      { vb with
                          vested_balance_schedules :=
                            updateFirst (fun sc => sc.schedule_number == n)
                              (fun sc =>
                                { sc with
                                    status := 3
                                    particulars := m })
                              vb.vested_balance_schedules })
                  s.vested_balances }
        event := .EmitSuccess .VestedBalanceScheduleApproved
        ret := .ok () } := by
  unfold approve_transfer
  rw [if_neg (by simp [hc])]
  simp only [hfb, hfs]
  rw [if_pos hst]

theorem remove_vested_balance_not_owner (s : Vesting) (c a : AccountId)
    (h : c ≠ s.vesting_owner) :
    remove_vested_balance s c a =
      { state := s, event := .EmitError .BadOrigin, ret := .ok () } := by
  unfold remove_vested_balance
  rw [if_pos h]

theorem remove_vested_balance_not_found (s : Vesting) (c a : AccountId)
    (hc : c = s.vesting_owner)
    (hf : s.vested_balances.findIdx? (fun v => v.address == a) = none) :
    remove_vested_balance s c a =
      { state := s, event := .EmitError .VestedBalanceNotFound,
        ret := .ok () } := by
  unfold remove_vested_balance
  rw [if_neg (by simp [hc])]
  simp only [hf]

theorem remove_vested_balance_found (s : Vesting) (c a : AccountId) (i : Nat)
    (hc : c = s.vesting_owner)
    (hf : s.vested_balances.findIdx? (fun v => v.address == a) = some i) :
    remove_vested_balance s c a =
      { state := { s with vested_balances := swapRemove s.vested_balances i }
        event := .EmitSuccess .VestedBalanceRemoved
        ret := .ok () } := by
  unfold remove_vested_balance
  rw [if_neg (by simp [hc])]
  simp only [hf]

/-! Invariant preservation. -/

theorem sliceSum_calc (vb : VestedBalance) :
    sliceSum (calculate_balances vb) = sliceSum vb := by
  unfold sliceSum
  rw [calculate_balances_schedules]

theorem GoodBalance_calc (b : VestedBalance)
    (l' : List VestedBalanceSchedule)
    (hlen : l'.length = b.vested_balance_schedules.length)
    (hmem : ∀ sl ∈ l', sl.status ≤ 3 ∧
      sl.schedule_balance =
        b.original_balance / b.vested_balance_schedules.length) :
    GoodBalance
      (calculate_balances { b with vested_balance_schedules := l' }) := by
  constructor
  · intro sl hsl
    rw [calculate_balances_schedules] at hsl
    refine ⟨(hmem sl hsl).1, ?_⟩
    rw [calculate_balances_schedules, calculate_balances_original]
    show sl.schedule_balance = b.original_balance / l'.length
    rw [hlen]
    exact (hmem sl hsl).2
  · left
    rw [sliceSum_calc]
    apply sum4_calculate_balances
    intro sl hsl
    exact (hmem sl hsl).1

theorem DivBalance_calc (b : VestedBalance)
    (l' : List VestedBalanceSchedule)
    (hsum : (l'.map (fun s => s.schedule_balance)).sum = sliceSum b)
    (hst : ∀ sl ∈ l', sl.status ≤ 3)
    (hdiv : DivBalance b) :
    DivBalance
      (calculate_balances { b with vested_balance_schedules := l' }) := by
  refine ⟨?_, ?_, ?_⟩
  · intro sl hsl
    rw [calculate_balances_schedules] at hsl
    exact hst sl hsl
  · rw [sliceSum_calc, calculate_balances_original]
    show (l'.map (fun s => s.schedule_balance)).sum = b.original_balance
    rw [hsum]
    exact hdiv.2.1
  · rw [sum4_calculate_balances _ (fun sl hsl => hst sl hsl),
      calculate_balances_original]
    show (l'.map (fun s => s.schedule_balance)).sum = b.original_balance
    rw [hsum]
    exact hdiv.2.1

theorem nodup_addr_map (F : VestedBalance → VestedBalance)
    (hF : ∀ b, (F b).address = b.address) (l : List VestedBalance)
    (h : (l.map (fun b => b.address)).Nodup) :
    ((l.map F).map (fun b => b.address)).Nodup := by
  rw [List.map_map]
  have heq : l.map ((fun b => b.address) ∘ F) = l.map (fun b => b.address) :=
    List.map_congr_left (fun b _ => hF b)
  rw [heq]
  exact h

theorem nodup_addr_updateFirst (p : VestedBalance → Bool)
    (f : VestedBalance → VestedBalance)
    (hf : ∀ x, (f x).address = x.address) (l : List VestedBalance)
    (h : (l.map (fun b => b.address)).Nodup) :
    ((updateFirst p f l).map (fun b => b.address)).Nodup := by
  rw [map_updateFirst _ _ _ hf]
  exact h

theorem LedgerInv_setup (s : Vesting) (c : AccountId) (a t : Nat)
    (h : LedgerInv s) : LedgerInv (setup_vesting s c a t).state := by
  by_cases hc : c = s.vesting_owner
  · rw [setup_vesting_owner s c a t hc]
    refine ⟨by simp, ?_⟩
    intro b hb
    simp at hb
  · rw [setup_vesting_not_owner s c a t hc]
    exact h

theorem LedgerInv_add (s : Vesting) (c a : AccountId) (o : Nat)
    (r : OpResult) (hr : add_vested_balance s c a o = some r)
    (h : LedgerInv s) : LedgerInv r.state := by
  by_cases hc : c = s.vesting_owner
  · cases hany : s.vested_balances.any (fun v => v.address == a) with
    | true =>
      rw [add_vested_balance_exists s c a o hc hany] at hr
      injection hr with hr
      rw [← hr]
      exact h
    | false =>
      by_cases ht : s.total_vested_schedule = 0
      · rw [add_vested_balance_panic s c a o hc hany ht] at hr
        cases hr
      · rw [add_vested_balance_success s c a o hc hany ht] at hr
        injection hr with hr
        rw [← hr]
        refine ⟨?_, ?_⟩
        · simp only [List.map_append, List.nodup_append]
          refine ⟨h.1, by simp, ?_⟩
          intro x hx hx2
          simp at hx2
          subst hx2
          rcases List.mem_map.mp hx with ⟨b0, hb0, hb0a⟩
          exact List.any_eq_false.mp hany b0 hb0 (by simp [hb0a])
        · intro b hb
          rcases List.mem_append.mp hb with hbl | hbr
          · exact h.2 b hbl
          · rcases List.mem_singleton.mp hbr with rfl
            refine ⟨?_, ?_⟩
            · intro sl hsl
              rcases List.mem_map.mp hsl with ⟨i, hi, rfl⟩
              refine ⟨by simp, ?_⟩
              simp
            · right
              refine ⟨rfl, rfl, rfl, rfl, ?_⟩
              intro sl hsl
              rcases List.mem_map.mp hsl with ⟨i, hi, rfl⟩
              rfl
  · rw [add_vested_balance_not_owner s c a o hc] at hr
    injection hr with hr
    rw [← hr]
    exact h

theorem LedgerInv_thaw (s : Vesting) (c : AccountId) (n : Nat)
    (h : LedgerInv s) : LedgerInv (thaw_vested_balances s c n).state := by
  by_cases hc : c = s.vesting_owner
  · rw [thaw_vested_balances_owner s c n hc]
    refine ⟨?_, ?_⟩
    · exact nodup_addr_map _ (fun b => by simp) _ h.1
    · intro b hb
      rcases List.mem_map.mp hb with ⟨b0, hb0, rfl⟩
      apply GoodBalance_calc
      · exact List.length_map _ _
      · intro sl hsl
        rcases List.mem_map.mp hsl with ⟨sl0, hsl0, rfl⟩
        have hg := (h.2 b0 hb0).1 sl0 hsl0
        by_cases hcond : (sl0.schedule_number == n && sl0.status == 0) = true
        · exact ⟨by simp [hcond], by simpa [hcond] using hg.2⟩
        · exact ⟨by simpa [hcond] using hg.1, by simpa [hcond] using hg.2⟩
  · rw [thaw_vested_balances_not_owner s c n hc]
    exact h

theorem LedgerInv_request (s : Vesting) (c : AccountId) (n : Nat)
    (r : AccountId) (h : LedgerInv s) :
    LedgerInv (request_transfer s c n r).state := by
  rcases hfb : s.vested_balances.find? (fun v => v.address == c) with _ | vb
  · rw [request_transfer_not_found s c n r hfb]
    exact h
  · rcases hfs : vb.vested_balance_schedules.find?
        (fun sc => sc.schedule_number == n) with _ | sch
    · rw [request_transfer_sched_not_found s c n r vb hfb hfs]
      exact h
    · by_cases hst : sch.status = 1
      · rw [request_transfer_success s c n r vb sch hfb hfs hst]
        refine ⟨?_, ?_⟩
        · refine nodup_addr_updateFirst _ _ ?_ _ h.1
          intro x
          simp
        · intro b hb
          rcases mem_updateFirst _ _ _ b hb with hmem | ⟨x, hx, rfl⟩
          · exact h.2 b hmem
          · apply GoodBalance_calc
            · exact updateFirst_length _ _ _
            · intro sl hsl
              rcases mem_updateFirst _ _ _ sl hsl with hm | ⟨sl0, hsl0, rfl⟩
              · exact (h.2 x hx).1 sl hm
              · have hg := (h.2 x hx).1 sl0 hsl0
                exact ⟨by simp, by simpa using hg.2⟩
      · rw [request_transfer_not_liquid s c n r vb sch hfb hfs hst]
        exact h

theorem LedgerInv_approve (s : Vesting) (c ra : AccountId) (n : Nat)
    (m : List Nat) (h : LedgerInv s) :
    LedgerInv (approve_transfer s c ra n m).state := by
  by_cases hc : c = s.vesting_owner
  · rcases hfb : s.vested_balances.find? (fun v => v.address == ra)
        with _ | vb
    · rw [approve_transfer_not_found s c ra n m hc hfb]
      exact h
    · rcases hfs : vb.vested_balance_schedules.find?
          (fun sc => sc.schedule_number == n) with _ | sch
      · rw [approve_transfer_sched_not_found s c ra n m vb hc hfb hfs]
        exact h
      · by_cases hst : sch.status = 2
        · rw [approve_transfer_success s c ra n m vb sch hc hfb hfs hst]
          refine ⟨?_, ?_⟩
          · refine nodup_addr_updateFirst _ _ ?_ _ h.1
            intro x
            simp
          · intro b hb
            rcases mem_updateFirst _ _ _ b hb with hmem | ⟨x, hx, rfl⟩
            · exact h.2 b hmem
            · apply GoodBalance_calc
              · exact updateFirst_length _ _ _
              · intro sl hsl
                rcases mem_updateFirst _ _ _ sl hsl with hm | ⟨sl0, hsl0, rfl⟩
                · exact (h.2 x hx).1 sl hm
                · have hg := (h.2 x hx).1 sl0 hsl0
                  exact ⟨by simp, by simpa using hg.2⟩
        · rw [approve_transfer_not_requested s c ra n m vb sch hc hfb hfs hst]
          exact h
  · rw [approve_transfer_not_owner s c ra n m hc]
    exact h

theorem LedgerInv_remove (s : Vesting) (c a : AccountId)
    (h : LedgerInv s) : LedgerInv (remove_vested_balance s c a).state := by
  by_cases hc : c = s.vesting_owner
  · rcases hf : s.vested_balances.findIdx? (fun v => v.address == a)
        with _ | i
    · rw [remove_vested_balance_not_found s c a hc hf]
      exact h
    · rw [remove_vested_balance_found s c a i hc hf]
      refine ⟨?_, ?_⟩
      · exact nodup_map_swapRemove _ _ _ h.1
      · intro b hb
        exact h.2 b (mem_swapRemove _ _ _ hb)
  · rw [remove_vested_balance_not_owner s c a hc]
    exact h

theorem LedgerInv_step (s : Vesting) (op : Op) (r : OpResult)
    (hstep : step s op = some r) (h : LedgerInv s) : LedgerInv r.state := by
  cases op with
  | setup c a t =>
    simp only [step] at hstep
    injection hstep with hstep
    rw [← hstep]
    exact LedgerInv_setup s c a t h
  | add c a o =>
    simp only [step] at hstep
    exact LedgerInv_add s c a o r hstep h
  | thaw c n =>
    simp only [step] at hstep
    injection hstep with hstep
    rw [← hstep]
    exact LedgerInv_thaw s c n h
  | request c n rec =>
    simp only [step] at hstep
    injection hstep with hstep
    rw [← hstep]
    exact LedgerInv_request s c n rec h
  | approve c ra n m =>
    simp only [step] at hstep
    injection hstep with hstep
    rw [← hstep]
    exact LedgerInv_approve s c ra n m h
  | remove c a =>
    simp only [step] at hstep
    injection hstep with hstep
    rw [← hstep]
    exact LedgerInv_remove s c a h

theorem Reachable_LedgerInv (s : Vesting) (h : Reachable s) : LedgerInv s := by
  induction h with
  | new a t c =>
    refine ⟨by simp [Vesting.new], ?_⟩
    intro b hb
    simp [Vesting.new] at hb
  | step s op r hre hstep ih => exact LedgerInv_step s op r hstep ih

theorem sum_map_sched (l : List Nat) (q : Nat)
    (f : Nat → VestedBalanceSchedule)
    (hf : ∀ i, (f i).schedule_balance = q) :
    ((l.map f).map (fun sl => sl.schedule_balance)).sum = l.length * q := by
  induction l with
  | nil => simp
  | cons x xs ih =>
    simp only [List.map_cons, List.sum_cons, List.length_cons, hf, ih]
    ring

theorem DivInv_setup (s : Vesting) (c : AccountId) (a t : Nat)
    (h : DivInv s) : DivInv (setup_vesting s c a t).state := by
  by_cases hc : c = s.vesting_owner
  · rw [setup_vesting_owner s c a t hc]
    intro b hb
    simp at hb
  · rw [setup_vesting_not_owner s c a t hc]
    exact h

theorem DivInv_add (s : Vesting) (c a : AccountId) (o : Nat)
    (r : OpResult) (hr : add_vested_balance s c a o = some r)
    (hdvd : s.total_vested_schedule ∣ o)
    (h : DivInv s) : DivInv r.state := by
  by_cases hc : c = s.vesting_owner
  · cases hany : s.vested_balances.any (fun v => v.address == a) with
    | true =>
      rw [add_vested_balance_exists s c a o hc hany] at hr
      injection hr with hr
      rw [← hr]
      exact h
    | false =>
      by_cases ht : s.total_vested_schedule = 0
      · rw [add_vested_balance_panic s c a o hc hany ht] at hr
        cases hr
      · rw [add_vested_balance_success s c a o hc hany ht] at hr
        injection hr with hr
        rw [← hr]
        intro b hb
        rcases List.mem_append.mp hb with hbl | hbr
        · exact h b hbl
        · rcases List.mem_singleton.mp hbr with rfl
          refine ⟨?_, ?_, ?_⟩
          · intro sl hsl
            rcases List.mem_map.mp hsl with ⟨i, hi, rfl⟩
            simp
          · exact (sum_map_sched (List.range s.total_vested_schedule)
              (o / s.total_vested_schedule)
              (fun i =>
                { schedule_number := i + 1
                  schedule_balance := o / s.total_vested_schedule
                  status := 0
                  recipient_address := none
                  particulars := [] })
              (fun i => rfl)).trans
              (by rw [List.length_range]; exact Nat.mul_div_cancel' hdvd)
          · show o + 0 + 0 + 0 = o
            omega
  · rw [add_vested_balance_not_owner s c a o hc] at hr
    injection hr with hr
    rw [← hr]
    exact h

theorem DivInv_thaw (s : Vesting) (c : AccountId) (n : Nat)
    (h : DivInv s) : DivInv (thaw_vested_balances s c n).state := by
  by_cases hc : c = s.vesting_owner
  · rw [thaw_vested_balances_owner s c n hc]
    intro b hb
    rcases List.mem_map.mp hb with ⟨b0, hb0, rfl⟩
    apply DivBalance_calc
    · rw [List.map_map]
      unfold sliceSum
      congr 1
      apply List.map_congr_left
      intro sl0 h0
      by_cases hcond : sl0.schedule_number = n ∧ sl0.status = 0 <;>
        simp [hcond]
    · intro sl hsl
      rcases List.mem_map.mp hsl with ⟨sl0, hsl0, rfl⟩
      have hg := (h b0 hb0).1 sl0 hsl0
      by_cases hcond : sl0.schedule_number = n ∧ sl0.status = 0
      · simp [hcond]
      · simpa [hcond] using hg
    · exact h b0 hb0
  · rw [thaw_vested_balances_not_owner s c n hc]
    exact h

theorem DivInv_request (s : Vesting) (c : AccountId) (n : Nat)
    (r : AccountId) (h : DivInv s) :
    DivInv (request_transfer s c n r).state := by
  rcases hfb : s.vested_balances.find? (fun v => v.address == c) with _ | vb
  · rw [request_transfer_not_found s c n r hfb]
    exact h
  · rcases hfs : vb.vested_balance_schedules.find?
        (fun sc => sc.schedule_number == n) with _ | sch
    · rw [request_transfer_sched_not_found s c n r vb hfb hfs]
      exact h
    · by_cases hst : sch.status = 1
      · rw [request_transfer_success s c n r vb sch hfb hfs hst]
        intro b hb
        rcases mem_updateFirst _ _ _ b hb with hmem | ⟨x, hx, rfl⟩
        · exact h b hmem
        · apply DivBalance_calc
          · rw [map_updateFirst (fun s : VestedBalanceSchedule => s.schedule_balance)
              (fun sc : VestedBalanceSchedule => sc.schedule_number == n)
              (fun sc : VestedBalanceSchedule =>
                { sc with status := 2, recipient_address := some r })
              (fun y => rfl)]
            rfl
          · intro sl hsl
            rcases mem_updateFirst _ _ _ sl hsl with hm | ⟨sl0, hsl0, rfl⟩
            · exact (h x hx).1 sl hm
            · simp
          · exact h x hx
      · rw [request_transfer_not_liquid s c n r vb sch hfb hfs hst]
        exact h

theorem DivInv_approve (s : Vesting) (c ra : AccountId) (n : Nat)
    (m : List Nat) (h : DivInv s) :
    DivInv (approve_transfer s c ra n m).state := by
  by_cases hc : c = s.vesting_owner
  · rcases hfb : s.vested_balances.find? (fun v => v.address == ra)
        with _ | vb
    · rw [approve_transfer_not_found s c ra n m hc hfb]
      exact h
    · rcases hfs : vb.vested_balance_schedules.find?
          (fun sc => sc.schedule_number == n) with _ | sch
      · rw [approve_transfer_sched_not_found s c ra n m vb hc hfb hfs]
        exact h
      · by_cases hst : sch.status = 2
        · rw [approve_transfer_success s c ra n m vb sch hc hfb hfs hst]
          intro b hb
          rcases mem_updateFirst _ _ _ b hb with hmem | ⟨x, hx, rfl⟩
          · exact h b hmem
          · apply DivBalance_calc
            · rw [map_updateFirst (fun s : VestedBalanceSchedule => s.schedule_balance)
                (fun sc : VestedBalanceSchedule => sc.schedule_number == n)
                (fun sc : VestedBalanceSchedule =>
                  { sc with status := 3, particulars := m })
                (fun y => rfl)]
              rfl
            · intro sl hsl
              rcases mem_updateFirst _ _ _ sl hsl with hm | ⟨sl0, hsl0, rfl⟩
              · exact (h x hx).1 sl hm
              · simp
            · exact h x hx
        · rw [approve_transfer_not_requested s c ra n m vb sch hc hfb hfs hst]
          exact h
  · rw [approve_transfer_not_owner s c ra n m hc]
    exact h

theorem DivInv_remove (s : Vesting) (c a : AccountId)
    (h : DivInv s) : DivInv (remove_vested_balance s c a).state := by
  by_cases hc : c = s.vesting_owner
  · rcases hf : s.vested_balances.findIdx? (fun v => v.address == a)
        with _ | i
    · rw [remove_vested_balance_not_found s c a hc hf]
      exact h
    · rw [remove_vested_balance_found s c a i hc hf]
      intro b hb
      exact h b (mem_swapRemove _ _ _ hb)
  · rw [remove_vested_balance_not_owner s c a hc]
    exact h

theorem DivInv_step (s : Vesting) (op : Op) (r : OpResult)
    (hstep : step s op = some r)
    (hdvd : ∀ c a o, op = Op.add c a o → s.total_vested_schedule ∣ o)
    (h : DivInv s) : DivInv r.state := by
  cases op with
  | setup c a t =>
    simp only [step] at hstep
    injection hstep with hstep
    rw [← hstep]
    exact DivInv_setup s c a t h
  | add c a o =>
    simp only [step] at hstep
    exact DivInv_add s c a o r hstep (hdvd c a o rfl) h
  | thaw c n =>
    simp only [step] at hstep
    injection hstep with hstep
    rw [← hstep]
    exact DivInv_thaw s c n h
  | request c n rec =>
    simp only [step] at hstep
    injection hstep with hstep
    rw [← hstep]
    exact DivInv_request s c n rec h
  | approve c ra n m =>
    simp only [step] at hstep
    injection hstep with hstep
    rw [← hstep]
    exact DivInv_approve s c ra n m h
  | remove c a =>
    simp only [step] at hstep
    injection hstep with hstep
    rw [← hstep]
    exact DivInv_remove s c a h

theorem DivReachable_DivInv (s : Vesting) (h : DivReachable s) : DivInv s := by
  induction h with
  | new a t c =>
    intro b hb
    simp [Vesting.new] at hb
  | step s op r hre hstep hdvd ih => exact DivInv_step s op r hstep hdvd ih

/-! Return values: every return path of every message returns Ok(()). -/

theorem setup_vesting_ret (s : Vesting) (c : AccountId) (a t : Nat) :
    (setup_vesting s c a t).ret = Except.ok () := by
  unfold setup_vesting
  split <;> rfl

theorem thaw_vested_balances_ret (s : Vesting) (c : AccountId) (n : Nat) :
    (thaw_vested_balances s c n).ret = Except.ok () := by
  unfold thaw_vested_balances
  split <;> rfl

theorem request_transfer_ret (s : Vesting) (c : AccountId) (n : Nat)
    (r : AccountId) : (request_transfer s c n r).ret = Except.ok () := by
  unfold request_transfer
  split
  · rfl
  · split
    · rfl
    · split <;> rfl

theorem approve_transfer_ret (s : Vesting) (c ra : AccountId) (n : Nat)
    (m : List Nat) : (approve_transfer s c ra n m).ret = Except.ok () := by
  unfold approve_transfer
  split
  · rfl
  · split
    · rfl
    · split
      · rfl
      · split <;> rfl

theorem remove_vested_balance_ret (s : Vesting) (c a : AccountId) :
    (remove_vested_balance s c a).ret = Except.ok () := by
  unfold remove_vested_balance
  split
  · rfl
  · split <;> rfl

theorem add_vested_balance_ret (s : Vesting) (c a : AccountId) (o : Nat)
    (r : OpResult) (hr : add_vested_balance s c a o = some r) :
    r.ret = Except.ok () := by
  unfold add_vested_balance at hr
  split at hr
  · injection hr with hr
    rw [← hr]
  · split at hr
    · injection hr with hr
      rw [← hr]
    · split at hr
      · cases hr
      · injection hr with hr
        rw [← hr]

/-! Claim theorems. -/

/-- C1 counterexample: starting from a fresh ledger with owner 9 and a
3-slice schedule, adding a balance of 100 for address 5 and then thawing
slice 1 yields a balance whose four totals sum to 99 while its
original_balance is 100 — refuting the claim that the four totals always sum
to original_balance after every operation. -/
theorem C1_counterexample :
    (add_vested_balance (Vesting.new 0 3 9) 9 5 100).map (fun r1 =>
      ((thaw_vested_balances r1.state 9 1).state.vested_balances.map sum4,
       (thaw_vested_balances r1.state 9 1).state.vested_balances.map
         (fun b => b.original_balance))) = some ([99], [100]) := by
  rfl

/-- C1 (amended): in every state reachable from a fresh ledger by operations
in which every add_vested_balance call used an original_balance divisible by
the ledger's total_vested_schedule at call time, every balance satisfies
frozen_balance + liquid_balance + requested_balance + transferred_balance =
original_balance.  (Without the divisibility proviso, the first
recalculation drops the division remainder, as the counterexample shows.) -/
theorem C1_amended (s : Vesting) (h : DivReachable s) :
    ∀ b ∈ s.vested_balances,
      b.frozen_balance + b.liquid_balance + b.requested_balance +
        b.transferred_balance = b.original_balance := by
  intro b hb
  exact (DivReachable_DivInv s h b hb).2.2

/-- C1 witness: the amended invariant evaluated on the concrete reachable
ledger exS2 (owner 7, 4 slices, amount 100 added, slice 1 thawed). -/
theorem C1_amended_witness :
    exBal2.frozen_balance + exBal2.liquid_balance + exBal2.requested_balance +
      exBal2.transferred_balance = exBal2.original_balance := by
  have h0 : DivReachable (Vesting.new 0 4 7) := DivReachable.new 0 4 7
  have h1 : DivReachable exS1 :=
    DivReachable.step (Vesting.new 0 4 7) (Op.add 7 1 100)
      { state := exS1, event := .EmitSuccess .VestedBalanceAdded,
        ret := .ok () } h0 (by decide)
      (fun c a o heq => by cases heq; decide)
  have h2 : DivReachable exS2 :=
    DivReachable.step exS1 (Op.thaw 7 1)
      { state := exS2, event := .EmitSuccess .VestedBalanceScheduleThawed,
        ret := .ok () } h1 (by decide)
      (fun c a o heq => by cases heq)
  exact C1_amended exS2 h2 exBal2 (by decide)

/-- C2 counterexample: immediately after add_vested_balance of 100 under a
3-slice schedule, the four totals sum to 100 while the slices sum to 99 —
refuting the claim that the totals always equal the sum of slice amounts. -/
theorem C2_counterexample :
    (add_vested_balance (Vesting.new 0 3 9) 9 5 100).map (fun r =>
      (r.state.vested_balances.map sum4,
       r.state.vested_balances.map sliceSum)) = some ([100], [99]) := by
  rfl

/-- C2 (amended): in every reachable state, every balance either has its four
totals equal to the recomputed bucket sums (so their sum equals the slice
sum), or is still in its freshly added form (all slices Frozen,
frozen_balance = original_balance, other totals zero, so the totals sum to
original_balance instead); and the slice sum equals original_balance exactly
when the slice count divides it. -/
theorem C2_amended (s : Vesting) (h : Reachable s) :
    ∀ b ∈ s.vested_balances,
      (sum4 b = sliceSum b ∨
        (b.frozen_balance = b.original_balance ∧ b.liquid_balance = 0 ∧
         b.requested_balance = 0 ∧ b.transferred_balance = 0 ∧
         ∀ sl ∈ b.vested_balance_schedules, sl.status = 0)) ∧
      (sliceSum b = b.original_balance ↔
        b.vested_balance_schedules.length ∣ b.original_balance) := by
  intro b hb
  have hInv := Reachable_LedgerInv s h
  have hg := hInv.2 b hb
  refine ⟨hg.2, ?_⟩
  have hsum : sliceSum b = b.vested_balance_schedules.length *
      (b.original_balance / b.vested_balance_schedules.length) := by
    unfold sliceSum
    have hrep : b.vested_balance_schedules.map (fun s => s.schedule_balance) =
        List.replicate b.vested_balance_schedules.length
          (b.original_balance / b.vested_balance_schedules.length) := by
      refine List.eq_replicate_iff.mpr ⟨by simp, ?_⟩
      intro x hx
      rcases List.mem_map.mp hx with ⟨sl, hsl, rfl⟩
      exact (hg.1 sl hsl).2
    rw [hrep, List.sum_replicate, smul_eq_mul]
  rw [hsum]
  constructor
  · intro he
    exact ⟨b.original_balance / b.vested_balance_schedules.length, he.symm⟩
  · intro hdvd
    exact Nat.mul_div_cancel' hdvd

/-- C2 witness: the amended statement evaluated on the concrete reachable
ledger exS1 (owner 7, 4 slices, amount 100 added): 4 divides 100, so the
slice sum equals the original balance there. -/
theorem C2_amended_witness : sliceSum exBal1 = exBal1.original_balance := by
  have h0 : Reachable (Vesting.new 0 4 7) := Reachable.new 0 4 7
  have h1 : Reachable exS1 :=
    Reachable.step (Vesting.new 0 4 7) (Op.add 7 1 100)
      { state := exS1, event := .EmitSuccess .VestedBalanceAdded,
        ret := .ok () } h0 (by decide)
  exact (C2_amended exS1 h1 exBal1 (by decide)).2.mpr (by decide)

/-- C3 counterexample: on the default-constructed ledger (schedule count 0),
the owner's add_vested_balance call reaches the division
original_balance / 0 and panics (modelled as none) instead of returning
Ok(()) — refuting the claim that every operation on every starting state
completes and returns Ok(()). -/
theorem C3_counterexample :
    step (Vesting.defaultNew 3) (Op.add 3 5 7) = none := by
  rfl

/-- C3 (amended): an operation fails to complete exactly when it is an
add_vested_balance call by the owner for a fresh address while
total_vested_schedule is 0 (Rust division by zero panic); every operation
that completes returns the unconditional success value Ok(()), reporting its
business outcome only through the emitted event. -/
theorem C3_amended (s : Vesting) (op : Op) :
    (step s op = none ↔ ∃ c a o, op = Op.add c a o ∧ c = s.vesting_owner ∧
      s.vested_balances.any (fun v => v.address == a) = false ∧
      s.total_vested_schedule = 0) ∧
    (∀ r, step s op = some r → r.ret = Except.ok ()) := by
  constructor
  · cases op with
    | setup c a t => simp [step]
    | add c a o =>
      simp only [step]
      constructor
      · intro hnone
        by_cases hc : c = s.vesting_owner
        · cases hany : s.vested_balances.any (fun v => v.address == a) with
          | true =>
            rw [add_vested_balance_exists s c a o hc hany] at hnone
            cases hnone
          | false =>
            by_cases ht : s.total_vested_schedule = 0
            · exact ⟨c, a, o, rfl, hc, hany, ht⟩
            · rw [add_vested_balance_success s c a o hc hany ht] at hnone
              cases hnone
        · rw [add_vested_balance_not_owner s c a o hc] at hnone
          cases hnone
      · rintro ⟨c2, a2, o2, heq, hc, hany, ht⟩
        cases heq
        exact add_vested_balance_panic s c a o hc hany ht
    | thaw c n => simp [step]
    | request c n rec => simp [step]
    | approve c ra n m => simp [step]
    | remove c a => simp [step]
  · intro r hr
    cases op with
    | setup c a t =>
      simp only [step] at hr
      injection hr with hr
      rw [← hr]
      exact setup_vesting_ret s c a t
    | add c a o =>
      simp only [step] at hr
      exact add_vested_balance_ret s c a o r hr
    | thaw c n =>
      simp only [step] at hr
      injection hr with hr
      rw [← hr]
      exact thaw_vested_balances_ret s c n
    | request c n rec =>
      simp only [step] at hr
      injection hr with hr
      rw [← hr]
      exact request_transfer_ret s c n rec
    | approve c ra n m =>
      simp only [step] at hr
      injection hr with hr
      rw [← hr]
      exact approve_transfer_ret s c ra n m
    | remove c a =>
      simp only [step] at hr
      injection hr with hr
      rw [← hr]
      exact remove_vested_balance_ret s c a

/-- C3 witness: the amended statement evaluated at concrete inputs — the
owner's add on a 0-schedule ledger panics, and a completed setup call
returns Ok(()). -/
theorem C3_amended_witness :
    step (Vesting.new 2 0 4) (Op.add 4 6 10) = none ∧
    (setup_vesting (Vesting.new 2 0 4) 4 1 2).ret = Except.ok () := by
  constructor
  · exact (C3_amended (Vesting.new 2 0 4) (Op.add 4 6 10)).1.mpr
      ⟨4, 6, 10, rfl, rfl, by decide, rfl⟩
  · exact (C3_amended (Vesting.new 2 0 4) (Op.setup 4 1 2)).2
      (setup_vesting (Vesting.new 2 0 4) 4 1 2) rfl

/-- C4: whenever the caller differs from vesting_owner, each of the five
owner-only operations (setup_vesting, add_vested_balance,
thaw_vested_balances, approve_transfer, remove_vested_balance) leaves the
entire ledger state exactly unchanged, emits an event with status BadOrigin,
and still returns the success value Ok(()). -/
theorem C4_nonowner_noop (s : Vesting) (c : AccountId)
    (h : c ≠ s.vesting_owner) :
    (∀ a t, setup_vesting s c a t =
      { state := s, event := .EmitError .BadOrigin, ret := .ok () }) ∧
    (∀ a o, add_vested_balance s c a o =
      some { state := s, event := .EmitError .BadOrigin, ret := .ok () }) ∧
    (∀ n, thaw_vested_balances s c n =
      { state := s, event := .EmitError .BadOrigin, ret := .ok () }) ∧
    (∀ ra n m, approve_transfer s c ra n m =
      { state := s, event := .EmitError .BadOrigin, ret := .ok () }) ∧
    (∀ a, remove_vested_balance s c a =
      { state := s, event := .EmitError .BadOrigin, ret := .ok () }) :=
  ⟨fun a t => setup_vesting_not_owner s c a t h,
   fun a o => add_vested_balance_not_owner s c a o h,
   fun n => thaw_vested_balances_not_owner s c n h,
   fun ra n m => approve_transfer_not_owner s c ra n m h,
   fun a => remove_vested_balance_not_owner s c a h⟩

/-- C4 witness: the non-owner no-op behaviour evaluated on the concrete
ledger exS1 (owner 7) called by 8. -/
theorem C4_witness :
    setup_vesting exS1 8 5 6 =
      { state := exS1, event := .EmitError .BadOrigin, ret := .ok () } ∧
    add_vested_balance exS1 8 2 50 =
      some { state := exS1, event := .EmitError .BadOrigin, ret := .ok () } ∧
    thaw_vested_balances exS1 8 1 =
      { state := exS1, event := .EmitError .BadOrigin, ret := .ok () } ∧
    approve_transfer exS1 8 1 1 [] =
      { state := exS1, event := .EmitError .BadOrigin, ret := .ok () } ∧
    remove_vested_balance exS1 8 1 =
      { state := exS1, event := .EmitError .BadOrigin, ret := .ok () } := by
  have h := C4_nonowner_noop exS1 8 (by decide)
  exact ⟨h.1 5 6, h.2.1 2 50, h.2.2.1 1, h.2.2.2.1 1 1 [], h.2.2.2.2 1⟩

/-- C5 counterexample: with total_vested_schedule = 0, the owner's
add_vested_balance call for a fresh address panics on division by zero
(modelled as none) — no VestedBalance is appended, refuting the claim that a
new balance with N slices is appended whenever the address is fresh. -/
theorem C5_counterexample :
    add_vested_balance (Vesting.new 1 0 4) 4 2 9 = none := by
  rfl

/-- C5 (amended): when the owner calls add_vested_balance, an existing
address leaves the ledger unchanged with event VestedBalanceAlreadyExist;
for a fresh address, if total_vested_schedule = 0 the call panics on
division by zero, and otherwise exactly one new VestedBalance is appended
with N = total_vested_schedule slices numbered 1..=N, each of amount
original_balance / N, status Frozen, no recipient and empty memo, with
frozen_balance = original_balance and the other three totals zero. -/
theorem C5_amended (s : Vesting) (c a : AccountId) (o : Nat)
    (hc : c = s.vesting_owner) :
    (s.vested_balances.any (fun v => v.address == a) = true →
      add_vested_balance s c a o =
        some { state := s, event := .EmitError .VestedBalanceAlreadyExist,
               ret := .ok () }) ∧
    (s.vested_balances.any (fun v => v.address == a) = false →
      s.total_vested_schedule = 0 →
      add_vested_balance s c a o = none) ∧
    (s.vested_balances.any (fun v => v.address == a) = false →
      s.total_vested_schedule ≠ 0 →
      ∃ nb : VestedBalance,
        add_vested_balance s c a o = some
          { state := { s with vested_balances := s.vested_balances ++ [nb] }
            event := .EmitSuccess .VestedBalanceAdded
            ret := .ok () } ∧
        nb.address = a ∧ nb.original_balance = o ∧
        nb.frozen_balance = o ∧ nb.liquid_balance = 0 ∧
        nb.requested_balance = 0 ∧ nb.transferred_balance = 0 ∧
        nb.vested_balance_schedules.length = s.total_vested_schedule ∧
        ∀ j, ∀ hj : j < nb.vested_balance_schedules.length,
          nb.vested_balance_schedules.get ⟨j, hj⟩ =
            { schedule_number := j + 1
              schedule_balance := o / s.total_vested_schedule
              status := 0
              recipient_address := none
              particulars := [] }) := by
  refine ⟨fun hany => add_vested_balance_exists s c a o hc hany,
    fun hany ht => add_vested_balance_panic s c a o hc hany ht,
    fun hany ht => ?_⟩
  refine ⟨_, add_vested_balance_success s c a o hc hany ht, rfl, rfl, rfl,
    rfl, rfl, rfl, by simp, ?_⟩
  intro j hj
  simp

/-- C5 witness: the amended statement evaluated at concrete inputs — a
duplicate add on exS1 is rejected with state unchanged, and an add under a
0-slice schedule panics. -/
theorem C5_amended_witness :
    add_vested_balance exS1 7 1 50 =
      some { state := exS1, event := .EmitError .VestedBalanceAlreadyExist,
             ret := .ok () } ∧
    add_vested_balance (Vesting.new 3 0 5) 5 2 9 = none := by
  constructor
  · exact (C5_amended exS1 7 1 50 rfl).1 (by decide)
  · exact (C5_amended (Vesting.new 3 0 5) 5 2 9 rfl).2.1 (by decide) rfl

/-- C6 counterexample: on the ledger exT1 (one freshly added balance of 100
under a 3-slice schedule, frozen_balance = 100), the owner thaws slice
number 7: no slice of any balance changes status, yet the balance's
frozen_balance changes from 100 to 99 — refuting the claim that only
affected balances have their totals recomputed (equivalently, that no
balance's totals change except by that recomputation). -/
theorem C6_counterexample :
    ((thaw_vested_balances exT1 9 7).state.vested_balances.map
        (fun b => b.vested_balance_schedules.map (fun sl => sl.status)) =
      exT1.vested_balances.map
        (fun b => b.vested_balance_schedules.map (fun sl => sl.status))) ∧
    (thaw_vested_balances exT1 9 7).state.vested_balances.map
        (fun b => b.frozen_balance) = [99] ∧
    exT1.vested_balances.map (fun b => b.frozen_balance) = [100] := by
  refine ⟨rfl, rfl, rfl⟩

/-- C6 (amended): when the owner calls thaw_vested_balances(n), exactly one
VestedBalanceScheduleThawed event is emitted (even if zero slices changed),
the call returns Ok(()), the ledger configuration is unchanged, and for
EVERY balance (affected or not): each slice with schedule_number = n and
status Frozen becomes Liquid while all other slices keep their status, and
the four totals are recomputed as the bucket sums of the resulting slices —
so an untouched balance's stale totals can change. -/
theorem C6_amended (s : Vesting) (c : AccountId) (n : Nat)
    (hc : c = s.vesting_owner) :
    (thaw_vested_balances s c n).event =
      VestingStatus.EmitSuccess Success.VestedBalanceScheduleThawed ∧
    (thaw_vested_balances s c n).ret = Except.ok () ∧
    (thaw_vested_balances s c n).state.asset_id = s.asset_id ∧
    (thaw_vested_balances s c n).state.total_vested_schedule =
      s.total_vested_schedule ∧
    (thaw_vested_balances s c n).state.vesting_owner = s.vesting_owner ∧
    (thaw_vested_balances s c n).state.vested_balances.length =
      s.vested_balances.length ∧
    ∀ i, ∀ hi : i < s.vested_balances.length,
      ∃ hi2 : i < (thaw_vested_balances s c n).state.vested_balances.length,
        ((thaw_vested_balances s c n).state.vested_balances.get
            ⟨i, hi2⟩).address = (s.vested_balances.get ⟨i, hi⟩).address ∧
        ((thaw_vested_balances s c n).state.vested_balances.get
            ⟨i, hi2⟩).original_balance =
          (s.vested_balances.get ⟨i, hi⟩).original_balance ∧
        ((thaw_vested_balances s c n).state.vested_balances.get
            ⟨i, hi2⟩).vested_balance_schedules.length =
          (s.vested_balances.get ⟨i, hi⟩).vested_balance_schedules.length ∧
        (∀ j, ∀ hj : j < (s.vested_balances.get
            ⟨i, hi⟩).vested_balance_schedules.length,
          ∃ hj2 : j < ((thaw_vested_balances s c n).state.vested_balances.get
              ⟨i, hi2⟩).vested_balance_schedules.length,
            ((thaw_vested_balances s c n).state.vested_balances.get
                ⟨i, hi2⟩).vested_balance_schedules.get ⟨j, hj2⟩ =
              (if ((s.vested_balances.get
                    ⟨i, hi⟩).vested_balance_schedules.get
                    ⟨j, hj⟩).schedule_number = n ∧
                  ((s.vested_balances.get
                    ⟨i, hi⟩).vested_balance_schedules.get
                    ⟨j, hj⟩).status = 0 then
                { (s.vested_balances.get ⟨i, hi⟩).vested_balance_schedules.get
                    ⟨j, hj⟩ with status := 1 }
              else
                (s.vested_balances.get ⟨i, hi⟩).vested_balance_schedules.get
                  ⟨j, hj⟩)) ∧
        ((thaw_vested_balances s c n).state.vested_balances.get
            ⟨i, hi2⟩).frozen_balance =
          sumStatus ((thaw_vested_balances s c n).state.vested_balances.get
            ⟨i, hi2⟩).vested_balance_schedules 0 ∧
        ((thaw_vested_balances s c n).state.vested_balances.get
            ⟨i, hi2⟩).liquid_balance =
          sumStatus ((thaw_vested_balances s c n).state.vested_balances.get
            ⟨i, hi2⟩).vested_balance_schedules 1 ∧
        ((thaw_vested_balances s c n).state.vested_balances.get
            ⟨i, hi2⟩).requested_balance =
          sumStatus ((thaw_vested_balances s c n).state.vested_balances.get
            ⟨i, hi2⟩).vested_balance_schedules 2 ∧
        ((thaw_vested_balances s c n).state.vested_balances.get
            ⟨i, hi2⟩).transferred_balance =
          sumStatus ((thaw_vested_balances s c n).state.vested_balances.get
            ⟨i, hi2⟩).vested_balance_schedules 3 := by
  rw [thaw_vested_balances_owner s c n hc]
  refine ⟨rfl, rfl, rfl, rfl, rfl, by simp, ?_⟩
  intro i hi
  refine ⟨by simpa using hi, ?_, ?_, ?_, ?_, ?_, ?_, ?_, ?_⟩
  · simp
  · simp
  · simp
  · intro j hj
    simp only [List.get_eq_getElem] at hj
    refine ⟨by simpa using hj, ?_⟩
    simp only [List.get_eq_getElem, List.getElem_map,
      calculate_balances_schedules]
    by_cases hcond :
        (s.vested_balances[i].vested_balance_schedules[j]).schedule_number =
          n ∧ (s.vested_balances[i].vested_balance_schedules[j]).status = 0 <;>
      simp [hcond]
  · simp [calculate_balances_eq]
  · simp [calculate_balances_eq]
  · simp [calculate_balances_eq]
  · simp [calculate_balances_eq]

/-- C6 witness: the amended statement evaluated on exT1 with slice number 7
(which matches no slice): the Thawed event is still emitted and the balance
count is preserved. -/
theorem C6_amended_witness :
    (thaw_vested_balances exT1 9 7).event =
      VestingStatus.EmitSuccess Success.VestedBalanceScheduleThawed ∧
    (thaw_vested_balances exT1 9 7).state.vested_balances.length =
      exT1.vested_balances.length := by
  have h := C6_amended exT1 9 7 rfl
  exact ⟨h.1, h.2.2.2.2.2.1⟩

/-! Frame helpers for the targeted updates of request/approve. -/

theorem updateFirst_frame (p : α → Bool) (f : α → α) (l : List α) (x : α)
    (hf : l.find? p = some x) :
    ∃ i, ∃ hi : i < l.length, l.get ⟨i, hi⟩ = x ∧
      (updateFirst p f l).length = l.length ∧
      (∀ j, ∀ hj : j < l.length, j ≠ i →
        ∃ hj2 : j < (updateFirst p f l).length,
          (updateFirst p f l).get ⟨j, hj2⟩ = l.get ⟨j, hj⟩) ∧
      ∃ hi2 : i < (updateFirst p f l).length,
        (updateFirst p f l).get ⟨i, hi2⟩ = f x := by
  obtain ⟨i, hi, hget, hpx, hbef, heq⟩ := updateFirst_eq_set p f l x hf
  refine ⟨i, hi, hget, ?_, ?_, ?_⟩
  · rw [heq, List.length_set]
  · intro j hj hne
    refine ⟨by rw [heq, List.length_set]; exact hj, ?_⟩
    simp only [heq, List.get_eq_getElem, List.getElem_set]
    rw [if_neg (fun h => hne h.symm)]
  · refine ⟨by rw [heq, List.length_set]; exact hi, ?_⟩
    simp only [heq, List.get_eq_getElem, List.getElem_set]
    simp

theorem calc_update_balance_spec (vb : VestedBalance)
    (q : VestedBalanceSchedule → Bool)
    (g : VestedBalanceSchedule → VestedBalanceSchedule)
    (sch : VestedBalanceSchedule)
    (hfs : vb.vested_balance_schedules.find? q = some sch) :
    ∃ k, ∃ hk : k < vb.vested_balance_schedules.length,
      vb.vested_balance_schedules.get ⟨k, hk⟩ = sch ∧
      ∀ b', b' = calculate_balances
          { vb with
              vested_balance_schedules :=
                updateFirst q g vb.vested_balance_schedules } →
        b'.address = vb.address ∧
        b'.original_balance = vb.original_balance ∧
        b'.vested_balance_schedules.length =
          vb.vested_balance_schedules.length ∧
        (∀ j, ∀ hj : j < vb.vested_balance_schedules.length, j ≠ k →
          ∃ hj2 : j < b'.vested_balance_schedules.length,
            b'.vested_balance_schedules.get ⟨j, hj2⟩ =
              vb.vested_balance_schedules.get ⟨j, hj⟩) ∧
        (∃ hk2 : k < b'.vested_balance_schedules.length,
          b'.vested_balance_schedules.get ⟨k, hk2⟩ = g sch) ∧
        b'.frozen_balance = sumStatus b'.vested_balance_schedules 0 ∧
        b'.liquid_balance = sumStatus b'.vested_balance_schedules 1 ∧
        b'.requested_balance = sumStatus b'.vested_balance_schedules 2 ∧
        b'.transferred_balance = sumStatus b'.vested_balance_schedules 3 := by
  obtain ⟨k, hk, hget, hlen, hother, hk2, hself⟩ :=
    updateFirst_frame q g vb.vested_balance_schedules sch hfs
  refine ⟨k, hk, hget, ?_⟩
  rintro b' rfl
  refine ⟨by simp, by simp, by simpa using hlen, ?_, ?_, ?_, ?_, ?_, ?_⟩
  · intro j hj hne
    obtain ⟨hj2, hval⟩ := hother j hj hne
    exact ⟨by simpa using hj2, by simpa using hval⟩
  · exact ⟨by simpa using hk2, by simpa using hself⟩
  · rw [calculate_balances_eq]
  · rw [calculate_balances_eq]
  · rw [calculate_balances_eq]
  · rw [calculate_balances_eq]

/-- C7: request_transfer is caller-scoped with no owner check: for every
caller and (slice number, recipient), it leaves the ledger unchanged and
emits VestedBalanceNotFound when the caller has no balance,
VestedBalanceScheduleNotFound when the slice number is absent, and
VestedBalanceScheduleNotLiquid when the slice is not Liquid; otherwise it
sets the matched slice to Requested with the recipient recorded, recomputes
the caller's four totals as bucket sums, and emits
VestedBalanceScheduleRequested.  The emitted event never depends on who the
vesting owner is. -/
theorem C7_request_transfer_spec (s : Vesting) (c : AccountId) (n : Nat)
    (rec : AccountId) :
    (s.vested_balances.find? (fun v => v.address == c) = none →
      request_transfer s c n rec =
        { state := s, event := .EmitError .VestedBalanceNotFound,
          ret := .ok () }) ∧
    (∀ vb, s.vested_balances.find? (fun v => v.address == c) = some vb →
      vb.vested_balance_schedules.find?
        (fun sc => sc.schedule_number == n) = none →
      request_transfer s c n rec =
        { state := s, event := .EmitError .VestedBalanceScheduleNotFound,
          ret := .ok () }) ∧
    (∀ vb sch, s.vested_balances.find? (fun v => v.address == c) = some vb →
      vb.vested_balance_schedules.find?
        (fun sc => sc.schedule_number == n) = some sch →
      sch.status ≠ 1 →
      request_transfer s c n rec =
        { state := s, event := .EmitError .VestedBalanceScheduleNotLiquid,
          ret := .ok () }) ∧
    (∀ vb sch, s.vested_balances.find? (fun v => v.address == c) = some vb →
      vb.vested_balance_schedules.find?
        (fun sc => sc.schedule_number == n) = some sch →
      sch.status = 1 →
      (request_transfer s c n rec).event =
        VestingStatus.EmitSuccess Success.VestedBalanceScheduleRequested ∧
      (request_transfer s c n rec).ret = Except.ok () ∧
      ∃ i, ∃ hi : i < s.vested_balances.length,
        s.vested_balances.get ⟨i, hi⟩ = vb ∧
        ∃ k, ∃ hk : k < vb.vested_balance_schedules.length,
          vb.vested_balance_schedules.get ⟨k, hk⟩ = sch ∧
          ∃ hi2 : i < (request_transfer s c n rec).state.vested_balances.length,
            ∀ b', b' = (request_transfer s c n rec).state.vested_balances.get
                ⟨i, hi2⟩ →
              b'.address = vb.address ∧
              (∃ hk2 : k < b'.vested_balance_schedules.length,
                b'.vested_balance_schedules.get ⟨k, hk2⟩ =
                  { sch with status := 2, recipient_address := some rec }) ∧
              b'.frozen_balance = sumStatus b'.vested_balance_schedules 0 ∧
              b'.liquid_balance = sumStatus b'.vested_balance_schedules 1 ∧
              b'.requested_balance = sumStatus b'.vested_balance_schedules 2 ∧
              b'.transferred_balance =
                sumStatus b'.vested_balance_schedules 3) ∧
    (∀ w, (request_transfer { s with vesting_owner := w } c n rec).event =
      (request_transfer s c n rec).event) := by
  refine ⟨fun hfb => request_transfer_not_found s c n rec hfb,
    fun vb hfb hfs => request_transfer_sched_not_found s c n rec vb hfb hfs,
    fun vb sch hfb hfs hst =>
      request_transfer_not_liquid s c n rec vb sch hfb hfs hst,
    fun vb sch hfb hfs hst => ?_, ?_⟩
  · have hsv : (request_transfer s c n rec).state.vested_balances =
        updateFirst (fun v => v.address == c) (requestUpdate n rec)
          s.vested_balances := by
      rw [request_transfer_success s c n rec vb sch hfb hfs hst]
      rfl
    refine ⟨?_, ?_, ?_⟩
    · rw [request_transfer_success s c n rec vb sch hfb hfs hst]
    · rw [request_transfer_success s c n rec vb sch hfb hfs hst]
    · rw [hsv]
      obtain ⟨i, hi, hgeti, hlen, hother, hi2, hself⟩ :=
        updateFirst_frame (fun v => v.address == c) (requestUpdate n rec)
          s.vested_balances vb hfb
      obtain ⟨k, hk, hgetk, hb⟩ :=
        calc_update_balance_spec vb (fun sc => sc.schedule_number == n)
          (fun sc => { sc with status := 2, recipient_address := some rec })
          sch hfs
      refine ⟨i, hi, hgeti, k, hk, hgetk, hi2, ?_⟩
      rintro b' hb'
      rw [hb', hself]
      obtain ⟨ha, _ho, _hl, _hoth, hmk, h0, h1, h2, h3⟩ := hb _ rfl
      exact ⟨ha, hmk, h0, h1, h2, h3⟩
  · intro w
    rcases hfb : s.vested_balances.find? (fun v => v.address == c)
        with _ | vb
    · rw [request_transfer_not_found s c n rec hfb,
        request_transfer_not_found { s with vesting_owner := w } c n rec hfb]
    · rcases hfs : vb.vested_balance_schedules.find?
          (fun sc => sc.schedule_number == n) with _ | sch
      · rw [request_transfer_sched_not_found s c n rec vb hfb hfs,
          request_transfer_sched_not_found { s with vesting_owner := w }
            c n rec vb hfb hfs]
      · by_cases hst : sch.status = 1
        · rw [request_transfer_success s c n rec vb sch hfb hfs hst,
            request_transfer_success { s with vesting_owner := w }
              c n rec vb sch hfb hfs hst]
        · rw [request_transfer_not_liquid s c n rec vb sch hfb hfs hst,
            request_transfer_not_liquid { s with vesting_owner := w }
              c n rec vb sch hfb hfs hst]

/-- C7 witness: on the concrete ledger exS2 (address 1 holds slice 1
Liquid), a request by an address without a balance is a recorded no-op and a
request by address 1 on slice 1 succeeds. -/
theorem C7_witness :
    request_transfer exS2 3 1 2 =
      { state := exS2, event := .EmitError .VestedBalanceNotFound,
        ret := .ok () } ∧
    (request_transfer exS2 1 1 2).event =
      VestingStatus.EmitSuccess Success.VestedBalanceScheduleRequested := by
  constructor
  · exact (C7_request_transfer_spec exS2 3 1 2).1 (by decide)
  · exact ((C7_request_transfer_spec exS2 1 1 2).2.2.2.1 exBal2
      { schedule_number := 1, schedule_balance := 25, status := 1,
        recipient_address := none, particulars := [] }
      (by decide) (by decide) rfl).1

/-- C8: when the owner calls approve_transfer(beneficiary, slice number,
memo): the ledger is unchanged with event VestedBalanceNotFound when no
balance exists for the beneficiary, VestedBalanceScheduleNotFound when no
matching slice exists, and VestedBalanceScheduleNotRequested when the slice
is not Requested; otherwise the matched slice becomes Transferred with the
memo recorded in particulars, the four totals are recomputed as bucket sums,
and VestedBalanceScheduleApproved is emitted. -/
theorem C8_approve_transfer_spec (s : Vesting) (c ra : AccountId) (n : Nat)
    (m : List Nat) (hc : c = s.vesting_owner) :
    (s.vested_balances.find? (fun v => v.address == ra) = none →
      approve_transfer s c ra n m =
        { state := s, event := .EmitError .VestedBalanceNotFound,
          ret := .ok () }) ∧
    (∀ vb, s.vested_balances.find? (fun v => v.address == ra) = some vb →
      vb.vested_balance_schedules.find?
        (fun sc => sc.schedule_number == n) = none →
      approve_transfer s c ra n m =
        { state := s, event := .EmitError .VestedBalanceScheduleNotFound,
          ret := .ok () }) ∧
    (∀ vb sch, s.vested_balances.find? (fun v => v.address == ra) = some vb →
      vb.vested_balance_schedules.find?
        (fun sc => sc.schedule_number == n) = some sch →
      sch.status ≠ 2 →
      approve_transfer s c ra n m =
        { state := s, event := .EmitError .VestedBalanceScheduleNotRequested,
          ret := .ok () }) ∧
    (∀ vb sch, s.vested_balances.find? (fun v => v.address == ra) = some vb →
      vb.vested_balance_schedules.find?
        (fun sc => sc.schedule_number == n) = some sch →
      sch.status = 2 →
      (approve_transfer s c ra n m).event =
        VestingStatus.EmitSuccess Success.VestedBalanceScheduleApproved ∧
      (approve_transfer s c ra n m).ret = Except.ok () ∧
      ∃ i, ∃ hi : i < s.vested_balances.length,
        s.vested_balances.get ⟨i, hi⟩ = vb ∧
        ∃ k, ∃ hk : k < vb.vested_balance_schedules.length,
          vb.vested_balance_schedules.get ⟨k, hk⟩ = sch ∧
          ∃ hi2 : i < (approve_transfer s c ra n m).state.vested_balances.length,
            ∀ b', b' = (approve_transfer s c ra n m).state.vested_balances.get
                ⟨i, hi2⟩ →
              b'.address = vb.address ∧
              (∃ hk2 : k < b'.vested_balance_schedules.length,
                b'.vested_balance_schedules.get ⟨k, hk2⟩ =
                  { sch with status := 3, particulars := m }) ∧
              b'.frozen_balance = sumStatus b'.vested_balance_schedules 0 ∧
              b'.liquid_balance = sumStatus b'.vested_balance_schedules 1 ∧
              b'.requested_balance = sumStatus b'.vested_balance_schedules 2 ∧
              b'.transferred_balance =
                sumStatus b'.vested_balance_schedules 3) := by
  refine ⟨fun hfb => approve_transfer_not_found s c ra n m hc hfb,
    fun vb hfb hfs =>
      approve_transfer_sched_not_found s c ra n m vb hc hfb hfs,
    fun vb sch hfb hfs hst =>
      approve_transfer_not_requested s c ra n m vb sch hc hfb hfs hst,
    fun vb sch hfb hfs hst => ?_⟩
  have hsv : (approve_transfer s c ra n m).state.vested_balances =
      updateFirst (fun v => v.address == ra) (approveUpdate n m)
        s.vested_balances := by
    rw [approve_transfer_success s c ra n m vb sch hc hfb hfs hst]
    rfl
  refine ⟨?_, ?_, ?_⟩
  · rw [approve_transfer_success s c ra n m vb sch hc hfb hfs hst]
  · rw [approve_transfer_success s c ra n m vb sch hc hfb hfs hst]
  · rw [hsv]
    obtain ⟨i, hi, hgeti, hlen, hother, hi2, hself⟩ :=
      updateFirst_frame (fun v => v.address == ra) (approveUpdate n m)
        s.vested_balances vb hfb
    obtain ⟨k, hk, hgetk, hb⟩ :=
      calc_update_balance_spec vb (fun sc => sc.schedule_number == n)
        (fun sc => { sc with status := 3, particulars := m })
        sch hfs
    refine ⟨i, hi, hgeti, k, hk, hgetk, hi2, ?_⟩
    rintro b' hb'
    rw [hb', hself]
    obtain ⟨ha, _ho, _hl, _hoth, hmk, h0, h1, h2, h3⟩ := hb _ rfl
    exact ⟨ha, hmk, h0, h1, h2, h3⟩

/-- C8 witness: on the concrete ledger exS3 (address 1 holds slice 1
Requested), approving an absent beneficiary is a recorded no-op and
approving address 1 slice 1 succeeds. -/
theorem C8_witness :
    approve_transfer exS3 7 2 1 [] =
      { state := exS3, event := .EmitError .VestedBalanceNotFound,
        ret := .ok () } ∧
    (approve_transfer exS3 7 1 1 [171]).event =
      VestingStatus.EmitSuccess Success.VestedBalanceScheduleApproved := by
  constructor
  · exact (C8_approve_transfer_spec exS3 7 2 1 [] rfl).1 (by decide)
  · exact ((C8_approve_transfer_spec exS3 7 1 1 [171] rfl).2.2.2 exBal3
      { schedule_number := 1, schedule_balance := 25, status := 2,
        recipient_address := some 2, particulars := [] }
      (by decide) (by decide) rfl).1

/-- C10: a successful request_transfer or approve_transfer modifies only the
single targeted balance entry — and within it only the matched slice's
status plus its recipient (request) or particulars (approve) and the four
derived totals — while asset_id, total_vested_schedule, vesting_owner, every
other balance entry, and every other slice of the targeted balance are
exactly unchanged, and the matched slice keeps its schedule_number and
schedule_balance. -/
theorem C10_frame (s : Vesting) :
    (∀ c n rec vb sch,
      s.vested_balances.find? (fun v => v.address == c) = some vb →
      vb.vested_balance_schedules.find?
        (fun sc => sc.schedule_number == n) = some sch →
      sch.status = 1 →
      (request_transfer s c n rec).state.asset_id = s.asset_id ∧
      (request_transfer s c n rec).state.total_vested_schedule =
        s.total_vested_schedule ∧
      (request_transfer s c n rec).state.vesting_owner = s.vesting_owner ∧
      (request_transfer s c n rec).state.vested_balances.length =
        s.vested_balances.length ∧
      ∃ i, ∃ hi : i < s.vested_balances.length,
        s.vested_balances.get ⟨i, hi⟩ = vb ∧
        ∃ k, ∃ hk : k < vb.vested_balance_schedules.length,
          vb.vested_balance_schedules.get ⟨k, hk⟩ = sch ∧
          (∀ j, ∀ hj : j < s.vested_balances.length, j ≠ i →
            ∃ hj2 : j < (request_transfer s c n rec).state.vested_balances.length,
              (request_transfer s c n rec).state.vested_balances.get
                  ⟨j, hj2⟩ = s.vested_balances.get ⟨j, hj⟩) ∧
          ∃ hi2 : i < (request_transfer s c n rec).state.vested_balances.length,
            ∀ b', b' = (request_transfer s c n rec).state.vested_balances.get
                ⟨i, hi2⟩ →
              b'.address = vb.address ∧
              b'.original_balance = vb.original_balance ∧
              b'.vested_balance_schedules.length =
                vb.vested_balance_schedules.length ∧
              (∀ j2, ∀ hj2 : j2 < vb.vested_balance_schedules.length,
                j2 ≠ k →
                ∃ hj3 : j2 < b'.vested_balance_schedules.length,
                  b'.vested_balance_schedules.get ⟨j2, hj3⟩ =
                    vb.vested_balance_schedules.get ⟨j2, hj2⟩) ∧
              (∃ hk2 : k < b'.vested_balance_schedules.length,
                b'.vested_balance_schedules.get ⟨k, hk2⟩ =
                  { sch with status := 2, recipient_address := some rec })) ∧
    (∀ c ra n m vb sch, c = s.vesting_owner →
      s.vested_balances.find? (fun v => v.address == ra) = some vb →
      vb.vested_balance_schedules.find?
        (fun sc => sc.schedule_number == n) = some sch →
      sch.status = 2 →
      (approve_transfer s c ra n m).state.asset_id = s.asset_id ∧
      (approve_transfer s c ra n m).state.total_vested_schedule =
        s.total_vested_schedule ∧
      (approve_transfer s c ra n m).state.vesting_owner = s.vesting_owner ∧
      (approve_transfer s c ra n m).state.vested_balances.length =
        s.vested_balances.length ∧
      ∃ i, ∃ hi : i < s.vested_balances.length,
        s.vested_balances.get ⟨i, hi⟩ = vb ∧
        ∃ k, ∃ hk : k < vb.vested_balance_schedules.length,
          vb.vested_balance_schedules.get ⟨k, hk⟩ = sch ∧
          (∀ j, ∀ hj : j < s.vested_balances.length, j ≠ i →
            ∃ hj2 : j < (approve_transfer s c ra n m).state.vested_balances.length,
              (approve_transfer s c ra n m).state.vested_balances.get
                  ⟨j, hj2⟩ = s.vested_balances.get ⟨j, hj⟩) ∧
          ∃ hi2 : i < (approve_transfer s c ra n m).state.vested_balances.length,
            ∀ b', b' = (approve_transfer s c ra n m).state.vested_balances.get
                ⟨i, hi2⟩ →
              b'.address = vb.address ∧
              b'.original_balance = vb.original_balance ∧
              b'.vested_balance_schedules.length =
                vb.vested_balance_schedules.length ∧
              (∀ j2, ∀ hj2 : j2 < vb.vested_balance_schedules.length,
                j2 ≠ k →
                ∃ hj3 : j2 < b'.vested_balance_schedules.length,
                  b'.vested_balance_schedules.get ⟨j2, hj3⟩ =
                    vb.vested_balance_schedules.get ⟨j2, hj2⟩) ∧
              (∃ hk2 : k < b'.vested_balance_schedules.length,
                b'.vested_balance_schedules.get ⟨k, hk2⟩ =
                  { sch with status := 3, particulars := m })) := by
  constructor
  · intro c n rec vb sch hfb hfs hst
    have hsv : (request_transfer s c n rec).state.vested_balances =
        updateFirst (fun v => v.address == c) (requestUpdate n rec)
          s.vested_balances := by
      rw [request_transfer_success s c n rec vb sch hfb hfs hst]
      rfl
    refine ⟨?_, ?_, ?_, ?_, ?_⟩
    · rw [request_transfer_success s c n rec vb sch hfb hfs hst]
    · rw [request_transfer_success s c n rec vb sch hfb hfs hst]
    · rw [request_transfer_success s c n rec vb sch hfb hfs hst]
    · rw [hsv, updateFirst_length]
    · rw [hsv]
      obtain ⟨i, hi, hgeti, hlen, hother, hi2, hself⟩ :=
        updateFirst_frame (fun v => v.address == c) (requestUpdate n rec)
          s.vested_balances vb hfb
      obtain ⟨k, hk, hgetk, hb⟩ :=
        calc_update_balance_spec vb (fun sc => sc.schedule_number == n)
          (fun sc => { sc with status := 2, recipient_address := some rec })
          sch hfs
      refine ⟨i, hi, hgeti, k, hk, hgetk, hother, hi2, ?_⟩
      rintro b' hb'
      rw [hb', hself]
      obtain ⟨ha, ho, hl, hoth, hmk, _h0, _h1, _h2, _h3⟩ := hb _ rfl
      exact ⟨ha, ho, hl, hoth, hmk⟩
  · intro c ra n m vb sch hc hfb hfs hst
    have hsv : (approve_transfer s c ra n m).state.vested_balances =
        updateFirst (fun v => v.address == ra) (approveUpdate n m)
          s.vested_balances := by
      rw [approve_transfer_success s c ra n m vb sch hc hfb hfs hst]
      rfl
    refine ⟨?_, ?_, ?_, ?_, ?_⟩
    · rw [approve_transfer_success s c ra n m vb sch hc hfb hfs hst]
    · rw [approve_transfer_success s c ra n m vb sch hc hfb hfs hst]
    · rw [approve_transfer_success s c ra n m vb sch hc hfb hfs hst]
    · rw [hsv, updateFirst_length]
    · rw [hsv]
      obtain ⟨i, hi, hgeti, hlen, hother, hi2, hself⟩ :=
        updateFirst_frame (fun v => v.address == ra) (approveUpdate n m)
          s.vested_balances vb hfb
      obtain ⟨k, hk, hgetk, hb⟩ :=
        calc_update_balance_spec vb (fun sc => sc.schedule_number == n)
          (fun sc => { sc with status := 3, particulars := m })
          sch hfs
      refine ⟨i, hi, hgeti, k, hk, hgetk, hother, hi2, ?_⟩
      rintro b' hb'
      rw [hb', hself]
      obtain ⟨ha, ho, hl, hoth, hmk, _h0, _h1, _h2, _h3⟩ := hb _ rfl
      exact ⟨ha, ho, hl, hoth, hmk⟩

/-- C10 witness: the frame condition evaluated on the concrete ledgers exS2
(request by address 1) and exS3 (approve by owner 7). -/
theorem C10_witness :
    (request_transfer exS2 1 1 2).state.vesting_owner = exS2.vesting_owner ∧
    (request_transfer exS2 1 1 2).state.vested_balances.length =
      exS2.vested_balances.length ∧
    (approve_transfer exS3 7 1 1 [171]).state.vested_balances.length =
      exS3.vested_balances.length := by
  have h1 := (C10_frame exS2).1 1 1 2 exBal2
    { schedule_number := 1, schedule_balance := 25, status := 1,
      recipient_address := none, particulars := [] }
    (by decide) (by decide) rfl
  have h2 := (C10_frame exS3).2 7 1 1 [171] exBal3
    { schedule_number := 1, schedule_balance := 25, status := 2,
      recipient_address := some 2, particulars := [] }
    rfl (by decide) (by decide) rfl
  exact ⟨h1.2.2.1, h1.2.2.2.1, h2.2.2.2.1⟩

/-! Helpers for C9: disjointness of address and schedule-number tests. -/

theorem addr_disj (c a : AccountId) (hne : a ≠ c) :
    ∀ x : VestedBalance, (x.address == c) = true → (x.address == a) = false := by
  intro x hx
  simp only [beq_iff_eq] at hx
  exact beq_eq_false_iff_ne.mpr (fun h => hne (h.symm.trans hx))

theorem num_disj (n' n : Nat) (hne : n ≠ n') :
    ∀ x : VestedBalanceSchedule, (x.schedule_number == n') = true →
      (x.schedule_number == n) = false := by
  intro x hx
  simp only [beq_iff_eq] at hx
  exact beq_eq_false_iff_ne.mpr (fun h => hne (h.symm.trans hx))

/-- C9: across any single operation on a reachable state, the status of the
slice with a given schedule_number in the balance of a given address (when
that slice exists before and after) is monotonically non-decreasing in the
order Frozen(0), Liquid(1), Requested(2), Transferred(3), advances at most
one step, and each advance is performed by exactly one operation:
thaw_vested_balances for 0 to 1, request_transfer (by that address, on that
slice number) for 1 to 2, approve_transfer (on that address and slice
number) for 2 to 3. -/
theorem C9_status_monotone (s : Vesting) (op : Op) (r : OpResult)
    (hre : Reachable s) (hstep : step s op = some r)
    (a : AccountId) (n : Nat) (st st' : Nat)
    (hst : lookupStatus s a n = some st)
    (hst' : lookupStatus r.state a n = some st') :
    st' = st ∨
      (st = 0 ∧ st' = 1 ∧ ∃ c, op = Op.thaw c n) ∨
      (st = 1 ∧ st' = 2 ∧ ∃ rec, op = Op.request a n rec) ∨
      (st = 2 ∧ st' = 3 ∧ ∃ c m, op = Op.approve c a n m) := by
  have hnd := (Reachable_LedgerInv s hre).1
  cases op with
  | setup c aid t =>
    simp only [step] at hstep
    injection hstep with hstep
    by_cases hc : c = s.vesting_owner
    · have hrs : r.state =
          { s with asset_id := aid, total_vested_schedule := t,
                   vested_balances := [] } := by
        rw [← hstep, setup_vesting_owner s c aid t hc]
      rw [hrs] at hst'
      simp [lookupStatus] at hst'
    · have hrs : r.state = s := by
        rw [← hstep, setup_vesting_not_owner s c aid t hc]
      rw [hrs, hst] at hst'
      injection hst' with h
      exact Or.inl h.symm
  | add c a2 o =>
    simp only [step] at hstep
    by_cases hc : c = s.vesting_owner
    · cases hany : s.vested_balances.any (fun v => v.address == a2) with
      | true =>
        rw [add_vested_balance_exists s c a2 o hc hany] at hstep
        injection hstep with hstep
        have hrs : r.state = s := by rw [← hstep]
        rw [hrs, hst] at hst'
        injection hst' with h
        exact Or.inl h.symm
      | false =>
        by_cases ht : s.total_vested_schedule = 0
        · rw [add_vested_balance_panic s c a2 o hc hany ht] at hstep
          cases hstep
        · rw [add_vested_balance_success s c a2 o hc hany ht] at hstep
          injection hstep with hstep
          rw [← hstep] at hst'
          simp only [lookupStatus] at hst hst'
          rw [List.find?_append] at hst'
          cases hf : s.vested_balances.find? (fun v => v.address == a) with
          | none =>
            rw [hf] at hst
            simp at hst
          | some b0 =>
            rw [hf] at hst hst'
            simp only [Option.or] at hst'
            rw [hst] at hst'
            injection hst' with h
            exact Or.inl h.symm
    · rw [add_vested_balance_not_owner s c a2 o hc] at hstep
      injection hstep with hstep
      have hrs : r.state = s := by rw [← hstep]
      rw [hrs, hst] at hst'
      injection hst' with h
      exact Or.inl h.symm
  | thaw c n' =>
    simp only [step] at hstep
    injection hstep with hstep
    by_cases hc : c = s.vesting_owner
    · have hrs : r.state =
          { s with vested_balances :=
              s.vested_balances.map (thawUpdate n') } := by
        rw [← hstep, thaw_vested_balances_owner s c n' hc]
        rfl
      rw [hrs] at hst'
      simp only [lookupStatus] at hst hst'
      rw [find?_map_pres (fun v => v.address == a) (thawUpdate n')
        (fun x => by simp [thawUpdate])] at hst'
      cases hf : s.vested_balances.find? (fun v => v.address == a) with
      | none =>
        rw [hf] at hst
        simp at hst
      | some b0 =>
        rw [hf] at hst hst'
        simp only [Option.map_some', Option.some_bind] at hst hst'
        have hsl : (thawUpdate n' b0).vested_balance_schedules =
            b0.vested_balance_schedules.map fun schedule =>
              if schedule.schedule_number == n' && schedule.status == 0 then
                { schedule with status := 1 }
              else schedule := by
          simp [thawUpdate]
        rw [hsl, find?_map_pres (fun sc => sc.schedule_number == n)
          (fun schedule : VestedBalanceSchedule =>
            if schedule.schedule_number == n' && schedule.status == 0 then
              { schedule with status := 1 }
            else schedule)
          (fun x => by
            by_cases hcond :
                (x.schedule_number == n' && x.status == 0) = true <;>
              simp [hcond])] at hst'
        cases hfsl : b0.vested_balance_schedules.find?
            (fun sc => sc.schedule_number == n) with
        | none =>
          rw [hfsl] at hst
          simp at hst
        | some sl =>
          rw [hfsl] at hst hst'
          simp only [Option.map_some'] at hst hst'
          injection hst with hst
          injection hst' with hst'
          have hnum : sl.schedule_number = n := by
            simpa using List.find?_some hfsl
          by_cases hcond : (sl.schedule_number == n' && sl.status == 0) = true
          · have hn : n = n' := by
              have h1 := (Bool.and_eq_true _ _ |>.mp hcond).1
              simp only [beq_iff_eq] at h1
              omega
            have hst0 : sl.status = 0 := by
              have h2 := (Bool.and_eq_true _ _ |>.mp hcond).2
              simpa using h2
            simp only [hcond, if_true] at hst'
            right
            left
            exact ⟨by omega, by omega, ⟨c, by rw [hn]⟩⟩
          · simp only [hcond] at hst'
            simp at hst'
            left
            omega
    · have hrs : r.state = s := by
        rw [← hstep, thaw_vested_balances_not_owner s c n' hc]
      rw [hrs, hst] at hst'
      injection hst' with h
      exact Or.inl h.symm
  | request c n' rec =>
    simp only [step] at hstep
    injection hstep with hstep
    rcases hfb : s.vested_balances.find? (fun v => v.address == c)
        with _ | vb
    · have hrs : r.state = s := by
        rw [← hstep, request_transfer_not_found s c n' rec hfb]
      rw [hrs, hst] at hst'
      injection hst' with h
      exact Or.inl h.symm
    · rcases hfsch : vb.vested_balance_schedules.find?
          (fun sc => sc.schedule_number == n') with _ | sch
      · have hrs : r.state = s := by
          rw [← hstep, request_transfer_sched_not_found s c n' rec vb hfb hfsch]
        rw [hrs, hst] at hst'
        injection hst' with h
        exact Or.inl h.symm
      · by_cases hsl1 : sch.status = 1
        · have hrs : r.state.vested_balances =
              updateFirst (fun v => v.address == c) (requestUpdate n' rec)
                s.vested_balances := by
            rw [← hstep,
              request_transfer_success s c n' rec vb sch hfb hfsch hsl1]
            rfl
          simp only [lookupStatus] at hst hst'
          rw [hrs] at hst'
          by_cases hac : a = c
          · subst hac
            rw [find?_updateFirst_self (fun v => v.address == a)
              (requestUpdate n' rec)
              (fun x => by simp [requestUpdate])] at hst'
            rw [hfb] at hst hst'
            simp only [Option.map_some', Option.some_bind] at hst hst'
            have hsl : (requestUpdate n' rec vb).vested_balance_schedules =
                updateFirst (fun sc => sc.schedule_number == n')
                  (fun sc : VestedBalanceSchedule => { sc with status := 2, recipient_address := some rec })
                  vb.vested_balance_schedules := by
              simp [requestUpdate]
            rw [hsl] at hst'
            by_cases hnn : n = n'
            · subst hnn
              rw [find?_updateFirst_self (fun sc => sc.schedule_number == n)
                (fun sc : VestedBalanceSchedule => { sc with status := 2, recipient_address := some rec })
                (fun x => rfl)] at hst'
              rw [hfsch] at hst hst'
              simp only [Option.map_some'] at hst hst'
              injection hst with hst
              injection hst' with hst'
              right
              right
              left
              refine ⟨by omega, ?_, ⟨rec, rfl⟩⟩
              rw [← hst']
            · rw [find?_updateFirst_other
                (fun sc => sc.schedule_number == n')
                (fun sc => sc.schedule_number == n)
                (fun sc : VestedBalanceSchedule => { sc with status := 2, recipient_address := some rec })
                (num_disj n' n hnn) (fun x => rfl)] at hst'
              rw [hst] at hst'
              injection hst' with h
              exact Or.inl h.symm
          · rw [find?_updateFirst_other (fun v => v.address == c)
              (fun v => v.address == a) (requestUpdate n' rec)
              (addr_disj c a hac)
              (fun x => by simp [requestUpdate])] at hst'
            rw [hst] at hst'
            injection hst' with h
            exact Or.inl h.symm
        · have hrs : r.state = s := by
            rw [← hstep,
              request_transfer_not_liquid s c n' rec vb sch hfb hfsch hsl1]
          rw [hrs, hst] at hst'
          injection hst' with h
          exact Or.inl h.symm
  | approve c ra n' m =>
    simp only [step] at hstep
    injection hstep with hstep
    by_cases hc : c = s.vesting_owner
    · rcases hfb : s.vested_balances.find? (fun v => v.address == ra)
          with _ | vb
      · have hrs : r.state = s := by
          rw [← hstep, approve_transfer_not_found s c ra n' m hc hfb]
        rw [hrs, hst] at hst'
        injection hst' with h
        exact Or.inl h.symm
      · rcases hfsch : vb.vested_balance_schedules.find?
            (fun sc => sc.schedule_number == n') with _ | sch
        · have hrs : r.state = s := by
            rw [← hstep,
              approve_transfer_sched_not_found s c ra n' m vb hc hfb hfsch]
          rw [hrs, hst] at hst'
          injection hst' with h
          exact Or.inl h.symm
        · by_cases hsl2 : sch.status = 2
          · have hrs : r.state.vested_balances =
                updateFirst (fun v => v.address == ra) (approveUpdate n' m)
                  s.vested_balances := by
              rw [← hstep,
                approve_transfer_success s c ra n' m vb sch hc hfb hfsch hsl2]
              rfl
            simp only [lookupStatus] at hst hst'
            rw [hrs] at hst'
            by_cases hac : a = ra
            · subst hac
              rw [find?_updateFirst_self (fun v => v.address == a)
                (approveUpdate n' m)
                (fun x => by simp [approveUpdate])] at hst'
              rw [hfb] at hst hst'
              simp only [Option.map_some', Option.some_bind] at hst hst'
              have hsl : (approveUpdate n' m vb).vested_balance_schedules =
                  updateFirst (fun sc => sc.schedule_number == n')
                    (fun sc : VestedBalanceSchedule => { sc with status := 3, particulars := m })
                    vb.vested_balance_schedules := by
                simp [approveUpdate]
              rw [hsl] at hst'
              by_cases hnn : n = n'
              · subst hnn
                rw [find?_updateFirst_self
                  (fun sc => sc.schedule_number == n)
                  (fun sc : VestedBalanceSchedule => { sc with status := 3, particulars := m })
                  (fun x => rfl)] at hst'
                rw [hfsch] at hst hst'
                simp only [Option.map_some'] at hst hst'
                injection hst with hst
                injection hst' with hst'
                right
                right
                right
                refine ⟨by omega, ?_, ⟨c, m, rfl⟩⟩
                rw [← hst']
              · rw [find?_updateFirst_other
                  (fun sc => sc.schedule_number == n')
                  (fun sc => sc.schedule_number == n)
                  (fun sc : VestedBalanceSchedule => { sc with status := 3, particulars := m })
                  (num_disj n' n hnn) (fun x => rfl)] at hst'
                rw [hst] at hst'
                injection hst' with h
                exact Or.inl h.symm
            · rw [find?_updateFirst_other (fun v => v.address == ra)
                (fun v => v.address == a) (approveUpdate n' m)
                (addr_disj ra a hac)
                (fun x => by simp [approveUpdate])] at hst'
              rw [hst] at hst'
              injection hst' with h
              exact Or.inl h.symm
          · have hrs : r.state = s := by
              rw [← hstep,
                approve_transfer_not_requested s c ra n' m vb sch hc hfb
                  hfsch hsl2]
            rw [hrs, hst] at hst'
            injection hst' with h
            exact Or.inl h.symm
    · have hrs : r.state = s := by
        rw [← hstep, approve_transfer_not_owner s c ra n' m hc]
      rw [hrs, hst] at hst'
      injection hst' with h
      exact Or.inl h.symm
  | remove c a2 =>
    simp only [step] at hstep
    injection hstep with hstep
    by_cases hc : c = s.vesting_owner
    · rcases hf : s.vested_balances.findIdx? (fun v => v.address == a2)
          with _ | i
      · have hrs : r.state = s := by
          rw [← hstep, remove_vested_balance_not_found s c a2 hc hf]
        rw [hrs, hst] at hst'
        injection hst' with h
        exact Or.inl h.symm
      · have hrs : r.state =
            { s with vested_balances := swapRemove s.vested_balances i } := by
          rw [← hstep, remove_vested_balance_found s c a2 i hc hf]
        rw [hrs] at hst'
        simp only [lookupStatus] at hst hst'
        cases hf2 : (swapRemove s.vested_balances i).find?
            (fun v => v.address == a) with
        | none =>
          rw [hf2] at hst'
          simp at hst'
        | some b1 =>
          rw [hf2] at hst'
          have hmem : b1 ∈ s.vested_balances :=
            mem_swapRemove _ _ _ (List.mem_of_find?_eq_some hf2)
          have haddr : b1.address = a := by
            simpa using List.find?_some hf2
          have hfind : s.vested_balances.find? (fun v => v.address == a) =
              some b1 := find?_addr_of_mem s.vested_balances hnd b1 hmem a haddr
          rw [hfind] at hst
          rw [hst] at hst'
          injection hst' with h
          exact Or.inl h.symm
    · have hrs : r.state = s := by
        rw [← hstep, remove_vested_balance_not_owner s c a2 hc]
      rw [hrs, hst] at hst'
      injection hst' with h
      exact Or.inl h.symm

/-- C9 witness: one concrete advance on the reachable ledger exS2 — the
request by address 1 on slice 1 moves its status from Liquid(1) to
Requested(2), matching the request branch of the disjunction. -/
theorem C9_witness :
    (2 : Nat) = 1 ∨
      ((1 : Nat) = 0 ∧ (2 : Nat) = 1 ∧ ∃ c, Op.request 1 1 2 = Op.thaw c 1) ∨
      ((1 : Nat) = 1 ∧ (2 : Nat) = 2 ∧
        ∃ rec, Op.request 1 1 2 = Op.request 1 1 rec) ∨
      ((1 : Nat) = 2 ∧ (2 : Nat) = 3 ∧
        ∃ c m, Op.request 1 1 2 = Op.approve c 1 1 m) := by
  have h0 : Reachable (Vesting.new 0 4 7) := Reachable.new 0 4 7
  have h1 : Reachable exS1 :=
    Reachable.step (Vesting.new 0 4 7) (Op.add 7 1 100)
      { state := exS1, event := .EmitSuccess .VestedBalanceAdded,
        ret := .ok () } h0 (by decide)
  have h2 : Reachable exS2 :=
    Reachable.step exS1 (Op.thaw 7 1)
      { state := exS2, event := .EmitSuccess .VestedBalanceScheduleThawed,
        ret := .ok () } h1 (by decide)
  exact C9_status_monotone exS2 (Op.request 1 1 2)
    { state := exS3, event := .EmitSuccess .VestedBalanceScheduleRequested,
      ret := .ok () } h2 (by decide) 1 1 1 2 (by decide) (by decide)
